import Mathlib

/-!
# Myo telemetry recorder: fixed-cadence CSV logging loop

Shallow embedding of `src/MyoSensor/MyoLinux/src/main_claude.cpp`.

* Clock readings are integers counting nanoseconds (`steady_clock` for the
  cadence check, `system_clock` for the row timestamp); the 64-bit counters of
  the clocks do not wrap within centuries, so no wrap-around is modelled.
* The floating point components of the IMU samples are only stored, copied and
  printed by the program, so their type is kept abstract (`F`).
* The environment of one run (device callbacks, clock readings, the outcome of
  each file operation, delivery of SIGINT) is an explicit input.
* The file is the sequence of pieces of text written to it.  Every line is
  inserted into the stream buffer and flushed by `std::endl`.  When the flush
  fails, the characters that the operating system accepted stay in the file,
  the stream goes bad, the line stays in the buffer and `close()` tries once
  more to write it; insertions into a bad stream are dropped.
-/

namespace MyoRecorder

/-! ## Data model -/

/-- One EMG sample (`myo::EmgSample`): eight signed channel readings.  The
widening `static_cast<int>` applied to each channel keeps its value. -/
abbrev EmgSample := Fin 8 → Int

/-- A callback invocation performed by `client.listen()`. -/
inductive Event (F : Type) where
  | emg (sample : EmgSample)
  | imu (ori : Fin 4 → F) (acc : Fin 3 → F) (gyr : Fin 3 → F)

/-- The text of one line, without its terminator: the header inserted at lines
43-46, a data row inserted at lines 87-93, or any other text. -/
inductive Line (F : Type) where
  | header
  | row (timestamp : Int) (emg : Fin 8 → Int) (ori : Fin 4 → F)
      (acc : Fin 3 → F) (gyr : Fin 3 → F)
  | text (s : String)

/-- The timestamp field of a data row. -/
def Line.timestamp? {F : Type} : Line F → Option Int
  | .row ts _ _ _ _ => some ts
  | _ => none

/-- A piece of the content of the file: a line followed by its terminator, or
only the first `n` characters of a line, without terminator (what a failed
write leaves behind, or the unterminated end of an older file). -/
inductive Chunk (F : Type) where
  | line (l : Line F)
  | part (l : Line F) (n : Nat)

/-- Whether a piece is a complete, terminated line. -/
def Chunk.isLine {F : Type} : Chunk F → Bool
  | .line _ => true
  | .part _ _ => false

/-- The timestamp of a piece that is a complete data row. -/
def Chunk.timestamp? {F : Type} : Chunk F → Option Int
  | .line l => l.timestamp?
  | .part _ _ => none

/-- What a failed write of line `l` leaves in the file when the operating
system accepted `accepted` characters before the error. -/
def leftover {F : Type} (l : Line F) (accepted : Nat) : List (Chunk F) :=
  if accepted = 0 then [] else [Chunk.part l accepted]

/-- Error state and buffer of the stream: either no error bit is set and the
buffer is empty, or the stream has failed and the buffer holds the line whose
write failed, if any. -/
inductive StreamState (F : Type) where
  | good
  | failed (buffered : Option (Line F))

/-- The output file stream `csv_file`. -/
structure OFStream (F : Type) where
  /-- content of the file, as the pieces written one after the other -/
  disk : List (Chunk F)
  /-- error state and buffer -/
  state : StreamState F
  /-- a file is attached to the stream -/
  is_open : Bool
  /-- number of `close()` calls performed on the stream -/
  closes : Nat

/-- Test `good()`: neither `failbit` nor `badbit` is set. -/
def OFStream.good {F : Type} (f : OFStream F) : Bool :=
  match f.state with
  | .good => true
  | .failed _ => false

/-- The line still held in the buffer of a failed stream. -/
def OFStream.pending {F : Type} (f : OFStream F) : Option (Line F) :=
  match f.state with
  | .good => none
  | .failed b => b

/-- Constructor `std::ofstream(filename, std::ios::app)`: the existing content
is kept and every write goes to the end of the file; a failed open sets
`failbit` and leaves the stream without file. -/
def OFStream.openApp {F : Type} (existing : List (Chunk F)) (ok : Bool) : OFStream F :=
  { disk := existing, state := if ok then .good else .failed none, is_open := ok,
    closes := 0 }

/-- Insertion of the text of one line followed by `std::endl`.  An insertion
into a failed stream does nothing.  Otherwise the text and the terminator go to
the buffer and the flush writes them right after the last character of the
file; when it fails, the accepted characters stay in the file, the stream goes
bad and the line stays in the buffer.  A stream without file goes bad. -/
def OFStream.put {F : Type} (f : OFStream F) (l : Line F) (io_ok : Bool) (accepted : Nat) :
    OFStream F :=
  match f.state with
  | .good =>
    if f.is_open then
      if io_ok then { f with disk := f.disk ++ [Chunk.line l] }
      else { f with disk := f.disk ++ leftover l accepted, state := .failed (some l) }
    else { f with state := .failed none }
  | .failed _ => f

/-- Member `close()`.  On an open stream the buffered line of a failed write is
written once more (the whole line, or again the characters accepted before the
error), the buffer is discarded and the file detached; the error bits already
set stay set.  Closing a stream that has no file sets `failbit`.  The closing of
the file descriptor itself is taken to succeed. -/
def OFStream.close {F : Type} (f : OFStream F) (io_ok : Bool) (accepted : Nat) :
    OFStream F :=
  if f.is_open then
    match f.state with
    | .failed (some l) =>
      { disk := f.disk ++ (if io_ok then [Chunk.line l] else leftover l accepted),
        state := .failed none, is_open := false, closes := f.closes + 1 }
    | _ => { f with is_open := false, closes := f.closes + 1 }
  else
    { f with state := .failed f.pending, closes := f.closes + 1 }

/-- Variables of `main` that are live in the loop, with the global `stop`. -/
structure State (F : Type) where
  stop : Int
  emg_data : Fin 8 → Int
  ori_data : Fin 4 → F
  acc_data : Fin 3 → F
  gyr_data : Fin 3 → F
  last_write_time : Int
  csv_file : OFStream F

/-- Environment of one loop iteration, that is of one execution of the loop
body whose `client.listen()` call returns. -/
structure Iter (F : Type) where
  /-- callbacks invoked by `client.listen()`, in order -/
  events : List (Event F)
  /-- reading `steady_clock::now()` at line 78, in nanoseconds -/
  current_time : Int
  /-- reading `system_clock::now()` at line 81, in nanoseconds since the epoch -/
  now : Int
  /-- whether the underlying write of the row succeeds -/
  write_ok : Bool
  /-- characters of the row accepted by the operating system when the write fails -/
  accepted : Nat
  /-- SIGINT is delivered while this iteration runs -/
  sigint : Bool

/-- Environment of one run of `main`. -/
structure Input (F : Type) where
  /-- result of `client.connected()` after `client.connect()` -/
  connected : Bool
  /-- content of the file named `filename` before the run (empty when it does not exist) -/
  existing : List (Chunk F)
  /-- whether opening the file succeeds -/
  open_ok : Bool
  /-- whether the underlying write of the header succeeds -/
  header_ok : Bool
  /-- characters of the header accepted by the operating system when its write fails -/
  header_accepted : Nat
  /-- contents of the uninitialised locals declared at lines 54-57 -/
  emg0 : Fin 8 → Int
  ori0 : Fin 4 → F
  acc0 : Fin 3 → F
  gyr0 : Fin 3 → F
  /-- reading `steady_clock::now()` at line 73, in nanoseconds -/
  start_time : Int
  /-- SIGINT is delivered before the first test of the loop condition -/
  sig_before : Bool
  /-- environment of the successive loop iterations -/
  iters : List (Iter F)
  /-- whether the write retried by `close()` succeeds -/
  close_ok : Bool
  /-- characters accepted by the operating system when the write retried by `close()` fails -/
  close_accepted : Nat

/-- What `main` returned, with the state it left behind (`none` when it
returned before the file was opened). -/
structure Result (F : Type) where
  exit_code : Int
  final : Option (State F)

/-! ## Operations -/

/-- Handler `signal_handler`: `stop = 1`. -/
def signal_handler {F : Type} (s : State F) : State F :=
  { s with stop := 1 }

/-- The loop `emg_data[i] = sample[i]` run over a list of indices. -/
def copyLoop {F : Type} (sample : EmgSample) (l : List (Fin 8)) (s : State F) : State F :=
  l.foldl (fun st i => { st with emg_data := Function.update st.emg_data i (sample i) }) s

/-- The EMG callback: copies the eight channels one by one, `i = 0, ..., 7`. -/
def onEmg {F : Type} (s : State F) (sample : EmgSample) : State F :=
  copyLoop sample (List.finRange 8) s

/-- The IMU callback: replaces the three IMU variables. -/
def onImu {F : Type} (s : State F) (ori : Fin 4 → F) (acc : Fin 3 → F) (gyr : Fin 3 → F) :
    State F :=
  { s with ori_data := ori, acc_data := acc, gyr_data := gyr }

/-- Dispatch of one callback. -/
def dispatch {F : Type} (s : State F) : Event F → State F
  | .emg sample => onEmg s sample
  | .imu ori acc gyr => onImu s ori acc gyr

/-- Call `client.listen()`: runs the callbacks of the pending device events. -/
def listen {F : Type} (s : State F) (events : List (Event F)) : State F :=
  events.foldl dispatch s

/-- Conversion `duration_cast<milliseconds>` of a nanosecond count: division
by 1,000,000 truncating toward zero. -/
def duration_cast_ms (d : Int) : Int := d.tdiv 1000000

/-- Conversion `time_point_cast<milliseconds>` of a nanosecond reading. -/
def time_point_cast_ms (t : Int) : Int := t.tdiv 1000000

/-- The condition of the `if` at line 79. -/
def due {F : Type} (s : State F) (current_time : Int) : Bool :=
  decide (duration_cast_ms (current_time - s.last_write_time) ≥ 10)

/-- The row inserted at lines 87-93 from the current values of the variables. -/
def rowOf {F : Type} (s : State F) (timestamp : Int) : Line F :=
  Line.row timestamp s.emg_data s.ori_data s.acc_data s.gyr_data

/-- Lines 78-96: the cadence check and the conditional row write. -/
def writeIfDue {F : Type} (s : State F) (it : Iter F) : State F :=
  if due s it.current_time then
    let timestamp := time_point_cast_ms it.now
    { s with csv_file := s.csv_file.put (rowOf s timestamp) it.write_ok it.accepted,
             last_write_time := it.current_time }
  else s

/-- One execution of the loop body (lines 76-99).  The signal handler may run
at any point of the body; the body never reads `stop`, so its effect is applied
at the end. -/
def body {F : Type} (s : State F) (it : Iter F) : State F :=
  let s1 := writeIfDue (listen s it.events) it
  if it.sigint then signal_handler s1 else s1

/-- The loop `while (!stop)`.  The list holds the environment of the
iterations still to come; `none` means that the loop is still running when
they are used up. -/
def loop {F : Type} (s : State F) : List (Iter F) → Option (State F)
  | [] => if s.stop ≠ 0 then some s else none
  | it :: rest => if s.stop ≠ 0 then some s else loop (body s it) rest

/-- Lines 39-46: the file is opened in append mode and the header is written. -/
def openStep {F : Type} (existing : List (Chunk F)) (open_ok header_ok : Bool)
    (header_accepted : Nat) : OFStream F :=
  (OFStream.openApp existing open_ok).put Line.header header_ok header_accepted

/-- State at the first test of the loop condition. -/
def initState {F : Type} (inp : Input F) : State F :=
  { stop := if inp.sig_before then 1 else 0
    emg_data := inp.emg0
    ori_data := inp.ori0
    acc_data := inp.acc0
    gyr_data := inp.gyr0
    last_write_time := inp.start_time
    csv_file := openStep inp.existing inp.open_ok inp.header_ok inp.header_accepted }

/-- Lines 102-107, after the loop: the file is closed and `main` returns 0. -/
def finish {F : Type} (s : State F) (close_ok : Bool) (close_accepted : Nat) : Result F :=
  { exit_code := 0,
    final := some { s with csv_file := s.csv_file.close close_ok close_accepted } }

/-- Function `main`: returns 1 when the device is not connected, otherwise
opens the file, runs the loop and finishes. -/
def main {F : Type} (inp : Input F) : Option (Result F) :=
  if inp.connected then
    match loop (initState inp) inp.iters with
    | none => none
    | some s => some (finish s inp.close_ok inp.close_accepted)
  else some { exit_code := 1, final := none }

/-- State after running the loop body on each of the given iterations. -/
def bodies {F : Type} (s : State F) (its : List (Iter F)) : State F :=
  its.foldl body s

/-! ## Text of the lines and of the file -/

/-- The text inserted by lines 43-46 before `std::endl`. -/
def headerText : String :=
  "Timestamp,EMG1,EMG2,EMG3,EMG4,EMG5,EMG6,EMG7,EMG8,"
    ++ "OrientationW,OrientationX,OrientationY,OrientationZ,"
    ++ "AccX,AccY,AccZ,"
    ++ "GyroX,GyroY,GyroZ"

/-- Insertion of an `int` or `long long`: its base-10 text. -/
def showInt (n : Int) : String := toString n

/-- The text inserted by lines 87-93 before `std::endl`; `showF` is the text
that the stream produces for a floating point value. -/
def rowText {F : Type} (showF : F → String) (timestamp : Int) (emg_data : Fin 8 → Int)
    (ori_data : Fin 4 → F) (acc_data : Fin 3 → F) (gyr_data : Fin 3 → F) : String :=
  let out := showInt timestamp ++ ","
  let out := (List.finRange 8).foldl (fun out j => out ++ showInt (emg_data j) ++ ",") out
  let out := out ++ showF (ori_data 0) ++ "," ++ showF (ori_data 1) ++ ","
    ++ showF (ori_data 2) ++ "," ++ showF (ori_data 3) ++ ","
  let out := out ++ showF (acc_data 0) ++ "," ++ showF (acc_data 1) ++ ","
    ++ showF (acc_data 2) ++ ","
  out ++ showF (gyr_data 0) ++ "," ++ showF (gyr_data 1) ++ "," ++ showF (gyr_data 2)

/-- The text of a line. -/
def Line.render {F : Type} (showF : F → String) : Line F → String
  | .header => headerText
  | .row timestamp emg ori acc gyr => rowText showF timestamp emg ori acc gyr
  | .text s => s

/-- The characters of a piece of the file; the line terminator written by
`std::endl` is the newline character. -/
def Chunk.chars {F : Type} (showF : F → String) : Chunk F → List Char
  | .line l => (l.render showF).data ++ ['\n']
  | .part l n => (l.render showF).data.take n

/-- The characters of the file. -/
def fileChars {F : Type} (showF : F → String) (disk : List (Chunk F)) : List Char :=
  (disk.map (Chunk.chars showF)).flatten

/-- The lines of a text: every newline ends a line, and characters after the
last newline form a last, unterminated line. -/
def textLines : List Char → List (List Char)
  | [] => []
  | c :: cs =>
    if c = '\n' then [] :: textLines cs
    else
      match textLines cs with
      | [] => [[c]]
      | l :: ls => (c :: l) :: ls

/-- The lines of the file. -/
def fileLines {F : Type} (showF : F → String) (disk : List (Chunk F)) : List (List Char) :=
  textLines (fileChars showF disk)

/-- Whether a text is empty or ends with a newline. -/
def terminated (cs : List Char) : Bool :=
  match cs.getLast? with
  | none => true
  | some c => c == '\n'

/-- Number of lines of the file that are the header line. -/
def headerCount {F : Type} (showF : F → String) (disk : List (Chunk F)) : Nat :=
  (fileLines showF disk).count headerText.data

/-- The nineteen column names of the documented format, in order. -/
def headerNames : List String :=
  ["Timestamp", "EMG1", "EMG2", "EMG3", "EMG4", "EMG5", "EMG6", "EMG7", "EMG8",
   "OrientationW", "OrientationX", "OrientationY", "OrientationZ",
   "AccX", "AccY", "AccZ", "GyroX", "GyroY", "GyroZ"]

/-- The nineteen field texts of a row in the order of the documented format. -/
def rowFields {F : Type} (showF : F → String) (timestamp : Int) (emg : Fin 8 → Int)
    (ori : Fin 4 → F) (acc : Fin 3 → F) (gyr : Fin 3 → F) : List String :=
  [showInt timestamp,
   showInt (emg 0), showInt (emg 1), showInt (emg 2), showInt (emg 3),
   showInt (emg 4), showInt (emg 5), showInt (emg 6), showInt (emg 7),
   showF (ori 0), showF (ori 1), showF (ori 2), showF (ori 3),
   showF (acc 0), showF (acc 1), showF (acc 2),
   showF (gyr 0), showF (gyr 1), showF (gyr 2)]

/-- The comma-separated fields of a line of text. -/
def csvFields (line : String) : List String :=
  line.split (fun c => c == ',')

/-- A rendering of rational values that contains neither a comma nor a
newline, used in the example runs. -/
def showFrac (q : Rat) : String :=
  showInt q.num ++ "/" ++ showInt (q.den : Int)

/-! ## Notions used to state the properties -/

/-- The sample of an EMG callback. -/
def Event.emg? {F : Type} : Event F → Option EmgSample
  | .emg sample => some sample
  | _ => none

/-- The three arguments of an IMU callback. -/
def Event.imu? {F : Type} : Event F → Option ((Fin 4 → F) × (Fin 3 → F) × (Fin 3 → F))
  | .imu ori acc gyr => some (ori, acc, gyr)
  | _ => none

/-- The last EMG sample among the delivered callbacks, if any. -/
def lastEmg {F : Type} (evs : List (Event F)) : Option EmgSample :=
  (evs.filterMap Event.emg?).getLast?

/-- The arguments of the last IMU callback among the delivered ones, if any. -/
def lastImu {F : Type} (evs : List (Event F)) :
    Option ((Fin 4 → F) × (Fin 3 → F) × (Fin 3 → F)) :=
  (evs.filterMap Event.imu?).getLast?

/-- All callbacks delivered in the given iterations, in order. -/
def delivered {F : Type} (its : List (Iter F)) : List (Event F) :=
  (its.map Iter.events).flatten

/-- Iteration number `k` (counted from 0) of the run of the loop body over
`its` from `s0` appends a piece to the file: a row, or the accepted part of a
row whose write fails. -/
def emitsAt {F : Type} (s0 : State F) (its : List (Iter F)) (k : Nat) : Prop :=
  (bodies s0 (its.take (k + 1))).csv_file.disk.length
    = (bodies s0 (its.take k)).csv_file.disk.length + 1

instance {F : Type} (s0 : State F) (its : List (Iter F)) (k : Nat) :
    Decidable (emitsAt s0 its k) := by
  unfold emitsAt; infer_instance

/-- The steady-clock reading of iteration number `k`. -/
def timeAt {F : Type} (its : List (Iter F)) (k : Nat) : Int :=
  match its.get? k with
  | some it => it.current_time
  | none => 0

/-- The timestamps of the complete data rows among the given pieces, in file
order. -/
def timestamps {F : Type} (cs : List (Chunk F)) : List Int :=
  cs.filterMap Chunk.timestamp?

/-- The iterations that the loop executes: those up to and including the first
one during which SIGINT is delivered. -/
def uptoSignal {F : Type} : List (Iter F) → List (Iter F)
  | [] => []
  | it :: rest => if it.sigint then [it] else it :: uptoSignal rest

/-- The iterations executed in a run: none when SIGINT arrives before the
first test of the loop condition. -/
def executed {F : Type} (inp : Input F) : List (Iter F) :=
  if inp.sig_before then [] else uptoSignal inp.iters

/-- The latest known value of each kind of sample, as described by the
documented design. -/
structure Latest (F : Type) where
  emg : Fin 8 → Int
  ori : Fin 4 → F
  acc : Fin 3 → F
  gyr : Fin 3 → F

/-- The latest values after a round of callbacks: the last update of each kind
replaces the stored value. -/
def Latest.absorb {F : Type} (c : Latest F) (evs : List (Event F)) : Latest F :=
  { emg := (lastEmg evs).getD c.emg
    ori := ((lastImu evs).getD (c.ori, c.acc, c.gyr)).1
    acc := ((lastImu evs).getD (c.ori, c.acc, c.gyr)).2.1
    gyr := ((lastImu evs).getD (c.ori, c.acc, c.gyr)).2.2 }

/-- The latest values held by the variables of the program. -/
def State.latest {F : Type} (s : State F) : Latest F :=
  { emg := s.emg_data, ori := s.ori_data, acc := s.acc_data, gyr := s.gyr_data }

/-- The rows that the documented design emits over a sequence of iterations:
in every iteration the callbacks update the latest values, and when at least
10,000,000 ns have elapsed since the baseline a row is emitted with the
wall-clock time in whole milliseconds and the latest values, and the baseline
becomes the time of that check. -/
def expectedRows {F : Type} (c : Latest F) (baseline : Int) : List (Iter F) → List (Line F)
  | [] => []
  | it :: rest =>
    if it.current_time - baseline ≥ 10000000 then
      Line.row (it.now.tdiv 1000000) (c.absorb it.events).emg (c.absorb it.events).ori
          (c.absorb it.events).acc (c.absorb it.events).gyr
        :: expectedRows (c.absorb it.events) it.current_time rest
    else expectedRows (c.absorb it.events) baseline rest

/-- The part of the state that decides what the loop does next: everything but
the file stream. -/
def control {F : Type} (s : State F) :
    Int × (Fin 8 → Int) × (Fin 4 → F) × (Fin 3 → F) × (Fin 3 → F) × Int :=
  (s.stop, s.emg_data, s.ori_data, s.acc_data, s.gyr_data, s.last_write_time)

/-- The same iteration with a successful row write. -/
def Iter.withoutFailure {F : Type} (it : Iter F) : Iter F :=
  { it with write_ok := true }

/-- The same run in which every file operation succeeds. -/
def Input.withoutFailures {F : Type} (inp : Input F) : Input F :=
  { inp with open_ok := true, header_ok := true, close_ok := true,
             iters := inp.iters.map Iter.withoutFailure }

/-- What the caller of `main` and the rest of the program can observe apart from
the file: the exit code and the final values of the variables. -/
def Result.outcome {F : Type} (r : Result F) :
    Int × Option (Int × (Fin 8 → Int) × (Fin 4 → F) × (Fin 3 → F) × (Fin 3 → F) × Int) :=
  (r.exit_code, r.final.map control)

/-! ## Example runs -/

/-- The scenario of an EMG update at 2 ms, an IMU update at 4 ms and a cadence
check at 10 ms after the session start. -/
def scenarioPre : List (Iter Rat) :=
  [ { events := [Event.emg (fun _ => 0)], current_time := 2000000,
      now := 1700000000002000000, write_ok := true, accepted := 0, sigint := false },
    { events := [Event.imu (fun i => if i = 0 then 1 else 0)
        (fun i => if i = 2 then 49 / 5 else 0) (fun _ => 0)], current_time := 4000000,
      now := 1700000000004000000, write_ok := true, accepted := 0, sigint := false } ]

/-- The iteration of the scenario whose cadence check happens at 10 ms. -/
def scenarioTick : Iter Rat :=
  { events := [], current_time := 10000000, now := 1700000000010000000,
    write_ok := true, accepted := 0, sigint := true }

/-- Input of the scenario: a new file, locals holding arbitrary values. -/
def scenarioInput : Input Rat :=
  { connected := true, existing := [], open_ok := true, header_ok := true,
    header_accepted := 0,
    emg0 := fun _ => 7, ori0 := fun _ => 3, acc0 := fun _ => 4, gyr0 := fun _ => 5,
    start_time := 0, sig_before := false, iters := scenarioPre ++ [scenarioTick],
    close_ok := true, close_accepted := 0 }

/-- The row written by the scenario. -/
def scenarioRow : Line Rat :=
  Line.row 1700000000010 (fun _ => 0) (fun i => if i = 0 then 1 else 0)
    (fun i => if i = 2 then 49 / 5 else 0) (fun _ => 0)

/-- Three iterations with cadence checks 10 ms, 15 ms and 20 ms after the
session start; SIGINT arrives during the third. -/
def cadenceRun : List (Iter Rat) :=
  [ { events := [], current_time := 10000000, now := 1700000000010000000,
      write_ok := true, accepted := 0, sigint := false },
    { events := [Event.emg (fun _ => 1)], current_time := 15000000,
      now := 1700000000015000000, write_ok := true, accepted := 0, sigint := false },
    { events := [], current_time := 20000000, now := 1700000000020000000,
      write_ok := true, accepted := 0, sigint := true } ]

/-- A run over `cadenceRun` on a new file. -/
def cadenceInput : Input Rat :=
  { scenarioInput with iters := cadenceRun }

/-- The two rows written by the run over `cadenceRun`. -/
def cadenceRows : List (Line Rat) :=
  [ Line.row 1700000000010 (fun _ => 7) (fun _ => 3) (fun _ => 4) (fun _ => 5),
    Line.row 1700000000020 (fun _ => 1) (fun _ => 3) (fun _ => 4) (fun _ => 5) ]

/-- A first iteration whose cadence check happens 1 ms after the session
start. -/
def earlyIter : Iter Rat :=
  { events := [], current_time := 1000000, now := 1700000000001000000,
    write_ok := true, accepted := 0, sigint := false }

/-- A first iteration without callbacks whose cadence check happens 10 ms after
the session start. -/
def quietIter : Iter Rat :=
  { events := [], current_time := 10000000, now := 1700000000010000000,
    write_ok := true, accepted := 0, sigint := true }

/-- The row written at 10 ms when no callback has been delivered and the locals
still hold the values they had at their declaration in `scenarioInput`. -/
def quietRow : Line Rat :=
  Line.row 1700000000010 (fun _ => 7) (fun _ => 3) (fun _ => 4) (fun _ => 5)

/-- A run in which SIGINT arrives before the loop condition is first tested. -/
def stoppedEarlyInput : Input Rat :=
  { scenarioInput with sig_before := true }

/-- A file left by an earlier session: the header line and one row. -/
def earlierFile : List (Chunk Rat) := [Chunk.line Line.header, Chunk.line scenarioRow]

/-- A file whose only line, `abc`, is not terminated. -/
def unterminatedFile : List (Chunk Rat) := [Chunk.part (Line.text "abc") 3]

/-- A run on the file left by an earlier session. -/
def secondSessionInput : Input Rat :=
  { scenarioInput with existing := earlierFile, iters := [quietIter] }

/-- A run during which the system clock is set back by one second between the
first and the second row. -/
def clockSetBackInput : Input Rat :=
  { scenarioInput with
    iters :=
      [ { events := [], current_time := 10000000, now := 1700000000010000000,
          write_ok := true, accepted := 0, sigint := false },
        { events := [], current_time := 20000000, now := 1699999999020000000,
          write_ok := true, accepted := 0, sigint := true } ] }

/-- An iteration at 10 ms whose row write fails without any character being
accepted. -/
def failingIter : Iter Rat :=
  { events := [], current_time := 10000000, now := 1700000000010000000,
    write_ok := false, accepted := 0, sigint := false }

/-- An iteration at 20 ms whose write would succeed. -/
def laterIter : Iter Rat :=
  { events := [], current_time := 20000000, now := 1700000000020000000,
    write_ok := true, accepted := 0, sigint := false }

/-- A run in which the write of the first row fails; two more cadence checks
are due before SIGINT arrives, and the write retried by `close()` fails too. -/
def failedWriteInput : Input Rat :=
  { scenarioInput with
    iters :=
      [ failingIter, laterIter,
        { events := [], current_time := 30000000, now := 1700000000030000000,
          write_ok := true, accepted := 0, sigint := true } ],
    close_ok := false }

/-- A run on a new file in which the write of the only row fails after the
operating system accepted its first five characters, and the write retried by
`close()` fails as well. -/
def tornWriteInput : Input Rat :=
  { scenarioInput with
    iters :=
      [ { events := [], current_time := 10000000, now := 1700000000010000000,
          write_ok := false, accepted := 5, sigint := true } ],
    close_ok := false }

/-- A run in which the file cannot be opened. -/
def unopenedInput : Input Rat :=
  { scenarioInput with open_ok := false }

/-! ## Basic facts about the operations -/

section Basic
variable {F : Type}

theorem copyLoop_spec (sample : EmgSample) (l : List (Fin 8)) (s : State F) :
    (copyLoop sample l s).emg_data = (fun i => if i ∈ l then sample i else s.emg_data i)
    ∧ (copyLoop sample l s).stop = s.stop
    ∧ (copyLoop sample l s).ori_data = s.ori_data
    ∧ (copyLoop sample l s).acc_data = s.acc_data
    ∧ (copyLoop sample l s).gyr_data = s.gyr_data
    ∧ (copyLoop sample l s).last_write_time = s.last_write_time
    ∧ (copyLoop sample l s).csv_file = s.csv_file := by
  induction l generalizing s with
  | nil => simp [copyLoop]
  | cons a l ih =>
    have h := ih { s with emg_data := Function.update s.emg_data a (sample a) }
    simp only [copyLoop, List.foldl_cons] at h ⊢
    refine ⟨?_, h.2⟩
    rw [h.1]
    funext i
    by_cases hi : i ∈ l
    · simp [hi]
    · by_cases hia : i = a
      · subst hia; simp [hi]
      · simp [hi, hia, Function.update_noteq hia]

theorem onEmg_eq (s : State F) (sample : EmgSample) :
    onEmg s sample = { s with emg_data := sample } := by
  have h := copyLoop_spec sample (List.finRange 8) s
  have he : onEmg s sample = copyLoop sample (List.finRange 8) s := rfl
  rw [he]
  have h1 : (copyLoop sample (List.finRange 8) s).emg_data = sample := by
    rw [h.1]; funext i; simp [List.mem_finRange]
  obtain ⟨_, h2, h3, h4, h5, h6, h7⟩ := h
  cases hc : copyLoop sample (List.finRange 8) s
  rw [hc] at h1 h2 h3 h4 h5 h6 h7
  simp only at h1 h2 h3 h4 h5 h6 h7
  subst h1 h2 h3 h4 h5 h6 h7
  rfl

theorem dispatch_emg_data (s : State F) (e : Event F) :
    (dispatch s e).emg_data = (e.emg?).getD s.emg_data := by
  cases e <;> simp [dispatch, onEmg_eq, onImu, Event.emg?]

theorem dispatch_imu (s : State F) (e : Event F) :
    ((dispatch s e).ori_data, (dispatch s e).acc_data, (dispatch s e).gyr_data)
      = (e.imu?).getD (s.ori_data, s.acc_data, s.gyr_data) := by
  cases e <;> simp [dispatch, onEmg_eq, onImu, Event.imu?]

theorem dispatch_frame (s : State F) (e : Event F) :
    (dispatch s e).stop = s.stop ∧ (dispatch s e).last_write_time = s.last_write_time
      ∧ (dispatch s e).csv_file = s.csv_file := by
  cases e <;> simp [dispatch, onEmg_eq, onImu]

theorem listen_snoc (s : State F) (evs : List (Event F)) (e : Event F) :
    listen s (evs ++ [e]) = dispatch (listen s evs) e := by
  simp [listen, List.foldl_append]

theorem listen_append (s : State F) (a b : List (Event F)) :
    listen s (a ++ b) = listen (listen s a) b := by
  simp [listen, List.foldl_append]

theorem listen_frame (s : State F) (evs : List (Event F)) :
    (listen s evs).stop = s.stop ∧ (listen s evs).last_write_time = s.last_write_time
      ∧ (listen s evs).csv_file = s.csv_file := by
  induction evs using List.reverseRecOn with
  | nil => simp [listen]
  | append_singleton evs e ih =>
    rw [listen_snoc]
    obtain ⟨h1, h2, h3⟩ := dispatch_frame (listen s evs) e
    exact ⟨h1.trans ih.1, h2.trans ih.2.1, h3.trans ih.2.2⟩

theorem lastEmg_snoc (evs : List (Event F)) (e : Event F) (d : EmgSample) :
    (lastEmg (evs ++ [e])).getD d = (e.emg?).getD ((lastEmg evs).getD d) := by
  unfold lastEmg
  rw [List.filterMap_append]
  cases h : e.emg? with
  | none => simp [List.filterMap, h]
  | some x => simp [List.filterMap, h, List.getLast?_append]

theorem lastImu_snoc (evs : List (Event F)) (e : Event F)
    (d : (Fin 4 → F) × (Fin 3 → F) × (Fin 3 → F)) :
    (lastImu (evs ++ [e])).getD d = (e.imu?).getD ((lastImu evs).getD d) := by
  unfold lastImu
  rw [List.filterMap_append]
  cases h : e.imu? with
  | none => simp [List.filterMap, h]
  | some x => simp [List.filterMap, h, List.getLast?_append]

theorem listen_emg_data (s : State F) (evs : List (Event F)) :
    (listen s evs).emg_data = (lastEmg evs).getD s.emg_data := by
  induction evs using List.reverseRecOn with
  | nil => simp [listen, lastEmg]
  | append_singleton evs e ih =>
    rw [listen_snoc, dispatch_emg_data, ih, lastEmg_snoc]

theorem listen_imu (s : State F) (evs : List (Event F)) :
    ((listen s evs).ori_data, (listen s evs).acc_data, (listen s evs).gyr_data)
      = (lastImu evs).getD (s.ori_data, s.acc_data, s.gyr_data) := by
  induction evs using List.reverseRecOn with
  | nil => simp [listen, lastImu]
  | append_singleton evs e ih =>
    rw [listen_snoc, dispatch_imu, ih, lastImu_snoc]

/-! ### The cadence check -/

theorem tdiv_ms_ge_iff (d : Int) : d.tdiv 1000000 ≥ 10 ↔ d ≥ 10000000 := by
  rcases Int.lt_or_le d 0 with hneg | hpos
  · have h1 : d.tdiv 1000000 = -((-d).tdiv 1000000) := by
      rw [Int.neg_tdiv, Int.neg_neg]
    have h2 : (-d).tdiv 1000000 = (-d) / 1000000 :=
      Int.tdiv_eq_ediv (by omega) (by decide)
    rw [h1, h2]
    omega
  · rw [Int.tdiv_eq_ediv hpos (by decide)]
    omega

theorem tdiv_ms_mono {a b : Int} (h : a ≤ b) : a.tdiv 1000000 ≤ b.tdiv 1000000 := by
  have neg_case : ∀ x : Int, x < 0 → x.tdiv 1000000 = -((-x) / 1000000) := by
    intro x hx
    have h1 : x.tdiv 1000000 = -((-x).tdiv 1000000) := by
      rw [Int.neg_tdiv, Int.neg_neg]
    rw [h1, Int.tdiv_eq_ediv (by omega) (by decide)]
  rcases Int.lt_or_le a 0 with ha | ha <;> rcases Int.lt_or_le b 0 with hb | hb
  · rw [neg_case a ha, neg_case b hb]; omega
  · rw [neg_case a ha, Int.tdiv_eq_ediv hb (by decide)]; omega
  · omega
  · rw [Int.tdiv_eq_ediv ha (by decide), Int.tdiv_eq_ediv hb (by decide)]; omega

theorem due_iff (s : State F) (ct : Int) :
    due s ct = true ↔ ct - s.last_write_time ≥ 10000000 := by
  simp only [due, duration_cast_ms, decide_eq_true_eq]
  exact tdiv_ms_ge_iff _

theorem due_eq_decide (s : State F) (ct : Int) :
    due s ct = decide (ct - s.last_write_time ≥ 10000000) := by
  rw [Bool.eq_iff_iff, due_iff]
  simp

theorem due_listen (s : State F) (evs : List (Event F)) (ct : Int) :
    due (listen s evs) ct = due s ct := by
  simp [due, (listen_frame s evs).2.1]

/-! ### One iteration -/

theorem put_of_failed (f : OFStream F) (l : Line F) (ok : Bool) (n : Nat)
    (h : f.good = false) : f.put l ok n = f := by
  rcases f with ⟨disk, st, op, cl⟩
  cases st <;> simp_all [OFStream.put, OFStream.good]

theorem put_disk (f : OFStream F) (l : Line F) (ok : Bool) (n : Nat) :
    (f.put l ok n).disk
      = if f.good = true ∧ f.is_open = true then
          (if ok = true then f.disk ++ [Chunk.line l] else f.disk ++ leftover l n)
        else f.disk := by
  rcases f with ⟨disk, st, op, cl⟩
  cases st <;> cases op <;> cases ok <;> simp [OFStream.put, OFStream.good]

theorem put_good (f : OFStream F) (l : Line F) (ok : Bool) (n : Nat) :
    (f.put l ok n).good = (f.good && f.is_open && ok) := by
  rcases f with ⟨disk, st, op, cl⟩
  cases st <;> cases op <;> cases ok <;> simp [OFStream.put, OFStream.good]

theorem put_pending (f : OFStream F) (l : Line F) (ok : Bool) (n : Nat) :
    (f.put l ok n).pending
      = if f.good = true then (if f.is_open = true ∧ ok = false then some l else none)
        else f.pending := by
  rcases f with ⟨disk, st, op, cl⟩
  cases st <;> cases op <;> cases ok <;> simp [OFStream.put, OFStream.good, OFStream.pending]

theorem put_frame (f : OFStream F) (l : Line F) (ok : Bool) (n : Nat) :
    (f.put l ok n).is_open = f.is_open ∧ (f.put l ok n).closes = f.closes := by
  rcases f with ⟨disk, st, op, cl⟩
  cases st <;> cases op <;> cases ok <;> simp [OFStream.put]

theorem leftover_no_line (l : Line F) (n : Nat) :
    (leftover l n).filter Chunk.isLine = [] ∧ (leftover l n).filterMap Chunk.timestamp? = [] := by
  unfold leftover
  split <;> simp [Chunk.isLine, Chunk.timestamp?]

theorem close_disk (f : OFStream F) (ok : Bool) (n : Nat) :
    (f.close ok n).disk
      = f.disk ++ (if f.is_open = true then
          (match f.pending with
           | some l => if ok = true then [Chunk.line l] else leftover l n
           | none => [])
        else []) := by
  rcases f with ⟨disk, st, op, cl⟩
  cases op
  · simp [OFStream.close]
  · cases st with
    | good => simp [OFStream.close, OFStream.pending]
    | failed b => cases b <;> simp [OFStream.close, OFStream.pending]

theorem close_frame (f : OFStream F) (ok : Bool) (n : Nat) :
    (f.close ok n).is_open = false ∧ (f.close ok n).closes = f.closes + 1 := by
  rcases f with ⟨disk, st, op, cl⟩
  cases op
  · simp [OFStream.close]
  · cases st with
    | good => simp [OFStream.close]
    | failed b => cases b <;> simp [OFStream.close]

theorem close_of_no_pending (f : OFStream F) (ok : Bool) (n : Nat) (h : f.pending = none) :
    (f.close ok n).disk = f.disk := by
  rw [close_disk, h]
  simp

theorem body_stop (s : State F) (it : Iter F) :
    (body s it).stop = if it.sigint = true then 1 else s.stop := by
  unfold body writeIfDue signal_handler
  have h := (listen_frame s it.events).1
  cases it.sigint <;> cases due (listen s it.events) it.current_time <;> simp [h]

theorem body_emg_data (s : State F) (it : Iter F) :
    (body s it).emg_data = (listen s it.events).emg_data := by
  unfold body writeIfDue signal_handler
  cases it.sigint <;> cases due (listen s it.events) it.current_time <;> simp

theorem body_imu (s : State F) (it : Iter F) :
    ((body s it).ori_data, (body s it).acc_data, (body s it).gyr_data)
      = ((listen s it.events).ori_data, (listen s it.events).acc_data,
          (listen s it.events).gyr_data) := by
  unfold body writeIfDue signal_handler
  cases it.sigint <;> cases due (listen s it.events) it.current_time <;> simp

theorem body_last_write_time (s : State F) (it : Iter F) :
    (body s it).last_write_time
      = if due s it.current_time = true then it.current_time else s.last_write_time := by
  unfold body writeIfDue signal_handler
  rw [due_listen]
  have h := (listen_frame s it.events).2.1
  cases it.sigint <;> cases due s it.current_time <;> simp [h]


theorem body_csv_file (s : State F) (it : Iter F) :
    (body s it).csv_file
      = if due s it.current_time = true then
          s.csv_file.put (rowOf (listen s it.events) (time_point_cast_ms it.now))
            it.write_ok it.accepted
        else s.csv_file := by
  unfold body writeIfDue signal_handler
  rw [due_listen]
  have h := (listen_frame s it.events).2.2
  cases it.sigint <;> cases hd : due s it.current_time <;> simp [h]

theorem body_disk (s : State F) (it : Iter F) :
    (body s it).csv_file.disk
      = if due s it.current_time = true ∧ s.csv_file.good = true
            ∧ s.csv_file.is_open = true then
          (if it.write_ok = true then
            s.csv_file.disk
              ++ [Chunk.line (rowOf (listen s it.events) (time_point_cast_ms it.now))]
          else
            s.csv_file.disk
              ++ leftover (rowOf (listen s it.events) (time_point_cast_ms it.now)) it.accepted)
        else s.csv_file.disk := by
  rw [body_csv_file]
  cases hd : due s it.current_time
  · simp
  · simp [put_disk]

theorem body_good (s : State F) (it : Iter F) :
    (body s it).csv_file.good
      = (s.csv_file.good
          && (!due s it.current_time || (s.csv_file.is_open && it.write_ok))) := by
  rw [body_csv_file]
  cases hd : due s it.current_time
  · simp
  · simp [put_good, Bool.and_assoc]

theorem body_file_frame (s : State F) (it : Iter F) :
    (body s it).csv_file.is_open = s.csv_file.is_open
      ∧ (body s it).csv_file.closes = s.csv_file.closes := by
  rw [body_csv_file]
  cases hd : due s it.current_time
  · simp
  · simp [put_frame]

theorem body_of_failed (s : State F) (it : Iter F) (h : s.csv_file.good = false) :
    (body s it).csv_file = s.csv_file := by
  rw [body_csv_file]
  cases hd : due s it.current_time
  · simp
  · simp [put_of_failed _ _ _ _ h]

/-! ### Several iterations -/

theorem bodies_snoc (s : State F) (its : List (Iter F)) (it : Iter F) :
    bodies s (its ++ [it]) = body (bodies s its) it := by
  simp [bodies, List.foldl_append]

theorem bodies_append (s : State F) (a b : List (Iter F)) :
    bodies s (a ++ b) = bodies (bodies s a) b := by
  simp [bodies, List.foldl_append]

theorem bodies_cons (s : State F) (it : Iter F) (its : List (Iter F)) :
    bodies s (it :: its) = bodies (body s it) its := rfl

theorem delivered_snoc (its : List (Iter F)) (it : Iter F) :
    delivered (its ++ [it]) = delivered its ++ it.events := by
  simp [delivered]

theorem bodies_emg_data (s : State F) (its : List (Iter F)) :
    (bodies s its).emg_data = (listen s (delivered its)).emg_data := by
  induction its using List.reverseRecOn with
  | nil => simp [bodies, delivered, listen]
  | append_singleton its it ih =>
    rw [bodies_snoc, body_emg_data, delivered_snoc, listen_append,
      listen_emg_data, listen_emg_data (listen s (delivered its)), ih]

theorem bodies_imu (s : State F) (its : List (Iter F)) :
    ((bodies s its).ori_data, (bodies s its).acc_data, (bodies s its).gyr_data)
      = ((listen s (delivered its)).ori_data, (listen s (delivered its)).acc_data,
          (listen s (delivered its)).gyr_data) := by
  induction its using List.reverseRecOn with
  | nil => simp [bodies, delivered, listen]
  | append_singleton its it ih =>
    rw [bodies_snoc, body_imu, delivered_snoc, listen_append,
      listen_imu, listen_imu (listen s (delivered its)), ih]

theorem body_last_write_time_ge (s : State F) (it : Iter F) :
    s.last_write_time ≤ (body s it).last_write_time := by
  rw [body_last_write_time]
  by_cases hd : due s it.current_time = true
  · have := (due_iff s it.current_time).1 hd
    simp only [hd, if_true]
    omega
  · simp [hd]

theorem bodies_last_write_time_ge (s : State F) (its : List (Iter F)) :
    s.last_write_time ≤ (bodies s its).last_write_time := by
  induction its using List.reverseRecOn with
  | nil => simp [bodies]
  | append_singleton its it ih =>
    rw [bodies_snoc]
    exact le_trans ih (body_last_write_time_ge _ _)

theorem take_succ_of_get? (its : List (Iter F)) (k : Nat) (it : Iter F)
    (h : its.get? k = some it) : its.take (k + 1) = its.take k ++ [it] := by
  rw [List.take_succ]
  simp only [List.get?_eq_getElem?] at h
  simp [h]


theorem emitsAt_iff (s0 : State F) (its : List (Iter F)) (k : Nat) :
    emitsAt s0 its k ↔ ∃ it, its.get? k = some it
      ∧ due (bodies s0 (its.take k)) it.current_time = true
      ∧ (bodies s0 (its.take k)).csv_file.good = true
      ∧ (bodies s0 (its.take k)).csv_file.is_open = true
      ∧ (it.write_ok = true ∨ it.accepted ≠ 0) := by
  unfold emitsAt
  cases hk : its.get? k with
  | none =>
    have hlen : its.length ≤ k := by
      simp only [List.get?_eq_getElem?] at hk
      exact List.getElem?_eq_none_iff.1 hk
    rw [List.take_of_length_le hlen, List.take_of_length_le (by omega)]
    simp
  | some it =>
    rw [take_succ_of_get? its k it hk, bodies_snoc, body_disk]
    by_cases hc : due (bodies s0 (its.take k)) it.current_time = true
        ∧ (bodies s0 (its.take k)).csv_file.good = true
        ∧ (bodies s0 (its.take k)).csv_file.is_open = true
    · obtain ⟨h1, h2, h3⟩ := hc
      cases hw : it.write_ok
      · by_cases ha : it.accepted = 0
        · simp [h1, h2, h3, hw, ha, leftover]
        · simp [h1, h2, h3, hw, ha, leftover]
      · simp [h1, h2, h3, hw]
    · simp only [hc, if_false]
      constructor
      · intro h; omega
      · rintro ⟨it2, h2, h3, h4, h5, -⟩
        simp only [Option.some.injEq] at h2
        subst h2
        exact absurd ⟨h3, h4, h5⟩ hc

theorem timeAt_of_get? (its : List (Iter F)) (k : Nat) (it : Iter F)
    (h : its.get? k = some it) : timeAt its k = it.current_time := by
  unfold timeAt
  rw [h]

/-! ### The loop -/

theorem loop_of_stop (s : State F) (its : List (Iter F)) (h : s.stop ≠ 0) :
    loop s its = some s := by
  cases its <;> simp [loop, h]

theorem loop_cons_of_running (s : State F) (it : Iter F) (rest : List (Iter F))
    (h : s.stop = 0) : loop s (it :: rest) = loop (body s it) rest := by
  simp [loop, h]

theorem loop_quiet_prefix (s : State F) (pre rest : List (Iter F)) (h : s.stop = 0)
    (hpre : ∀ x ∈ pre, x.sigint = false) :
    loop s (pre ++ rest) = loop (bodies s pre) rest ∧ (bodies s pre).stop = 0 := by
  induction pre generalizing s with
  | nil => exact ⟨rfl, h⟩
  | cons x pre ih =>
    have hx : x.sigint = false := hpre x (List.mem_cons_self _ _)
    have hs : (body s x).stop = 0 := by rw [body_stop, hx]; simpa using h
    have := ih (body s x) hs (fun y hy => hpre y (List.mem_cons_of_mem _ hy))
    rw [List.cons_append, loop_cons_of_running s x _ h, bodies_cons]
    exact this

theorem loop_eq_bodies_take (s s' : State F) (its : List (Iter F)) (h : loop s its = some s') :
    ∃ n, s' = bodies s (its.take n) := by
  induction its generalizing s with
  | nil =>
    refine ⟨0, ?_⟩
    by_cases hs : s.stop ≠ 0
    · simp [loop, hs] at h; simp [bodies, h]
    · simp [loop, hs] at h
  | cons it rest ih =>
    by_cases hs : s.stop ≠ 0
    · rw [loop_of_stop s _ hs] at h
      exact ⟨0, by simp at h; simp [bodies, h]⟩
    · rw [loop_cons_of_running s it rest (by simpa using hs)] at h
      obtain ⟨n, hn⟩ := ih (body s it) h
      exact ⟨n + 1, by rw [List.take_succ_cons, bodies_cons]; exact hn⟩


theorem bodies_of_failed (s : State F) (its : List (Iter F)) (h : s.csv_file.good = false) :
    (bodies s its).csv_file = s.csv_file := by
  induction its using List.reverseRecOn with
  | nil => rfl
  | append_singleton its it ih =>
    rw [bodies_snoc, body_of_failed _ _ (by rw [ih]; exact h), ih]

theorem bodies_good_false (s : State F) (its : List (Iter F)) (h : s.csv_file.good = false) :
    (bodies s its).csv_file.good = false ∧ (bodies s its).csv_file.disk = s.csv_file.disk := by
  rw [bodies_of_failed s its h]
  exact ⟨h, rfl⟩

theorem bodies_file_frame (s : State F) (its : List (Iter F)) :
    (bodies s its).csv_file.is_open = s.csv_file.is_open
      ∧ (bodies s its).csv_file.closes = s.csv_file.closes := by
  induction its using List.reverseRecOn with
  | nil => exact ⟨rfl, rfl⟩
  | append_singleton its it ih =>
    rw [bodies_snoc]
    obtain ⟨h1, h2⟩ := body_file_frame (bodies s its) it
    exact ⟨h1.trans ih.1, h2.trans ih.2⟩

theorem loop_stop (s s' : State F) (its : List (Iter F)) (h : loop s its = some s') :
    s'.stop ≠ 0 := by
  induction its generalizing s with
  | nil =>
    by_cases hs : s.stop ≠ 0
    · simp [loop, hs] at h; rw [← h]; exact hs
    · simp [loop, hs] at h
  | cons it rest ih =>
    by_cases hs : s.stop ≠ 0
    · rw [loop_of_stop s _ hs] at h
      simp at h; rw [← h]; exact hs
    · rw [loop_cons_of_running s it rest (by simpa using hs)] at h
      exact ih (body s it) h


theorem loop_eq_uptoSignal (s s' : State F) (its : List (Iter F)) (h0 : s.stop = 0)
    (h : loop s its = some s') : s' = bodies s (uptoSignal its) := by
  induction its generalizing s with
  | nil => simp [loop, h0] at h
  | cons it rest ih =>
    rw [loop_cons_of_running s it rest h0] at h
    cases hsig : it.sigint
    · have hs : (body s it).stop = 0 := by rw [body_stop, hsig]; simpa using h0
      have := ih (body s it) hs h
      simp only [uptoSignal, hsig, Bool.false_eq_true, if_false, bodies_cons]
      exact this
    · have hs : (body s it).stop ≠ 0 := by rw [body_stop, hsig]; simp
      rw [loop_of_stop _ _ hs] at h
      simp only [Option.some.injEq] at h
      simp only [uptoSignal, hsig, if_true]
      rw [← h]
      rfl

theorem main_connected (inp : Input F) (r : Result F) (hc : inp.connected = true)
    (hr : main inp = some r) :
    ∃ s, loop (initState inp) inp.iters = some s
      ∧ r = finish s inp.close_ok inp.close_accepted := by
  unfold main at hr
  simp only [hc, if_true] at hr
  cases hl : loop (initState inp) inp.iters with
  | none => rw [hl] at hr; simp at hr
  | some s => rw [hl] at hr; simp at hr; exact ⟨s, rfl, hr.symm⟩

theorem main_of_loop (inp : Input F) (s : State F) (hc : inp.connected = true)
    (hl : loop (initState inp) inp.iters = some s) :
    main inp = some (finish s inp.close_ok inp.close_accepted) := by
  unfold main
  simp [hc, hl]

theorem main_not_connected (inp : Input F) (r : Result F) (hc : ¬ inp.connected = true)
    (hr : main inp = some r) : r = { exit_code := 1, final := none } := by
  unfold main at hr
  simp only [hc, if_false] at hr
  simp at hr
  exact hr.symm

theorem main_eq_executed (inp : Input F) (r : Result F) (hc : inp.connected = true)
    (hr : main inp = some r) :
    r = finish (bodies (initState inp) (executed inp)) inp.close_ok inp.close_accepted := by
  obtain ⟨s, hl, hfin⟩ := main_connected inp r hc hr
  rw [hfin]
  congr 1
  unfold executed
  cases hb : inp.sig_before
  · have h0 : (initState inp).stop = 0 := by simp [initState, hb]
    simpa using loop_eq_uptoSignal _ _ _ h0 hl
  · have h0 : (initState inp).stop ≠ 0 := by simp [initState, hb]
    rw [loop_of_stop _ _ h0] at hl
    simp only [Option.some.injEq] at hl
    simp [bodies, hl]

theorem final_of_main (inp : Input F) (r : Result F) (sf : State F)
    (hr : main inp = some r) (hf : r.final = some sf) :
    inp.connected = true
      ∧ sf = { bodies (initState inp) (executed inp) with
               csv_file := (bodies (initState inp) (executed inp)).csv_file.close
                 inp.close_ok inp.close_accepted } := by
  by_cases hc : inp.connected = true
  · refine ⟨hc, ?_⟩
    have h := main_eq_executed inp r hc hr
    rw [h] at hf
    simp only [finish, Option.some.injEq] at hf
    exact hf.symm
  · rw [main_not_connected inp r hc hr] at hf
    simp at hf

theorem openStep_good (existing : List (Chunk F)) (oo ho : Bool) (n : Nat) :
    (openStep existing oo ho n).good = (oo && ho) := by
  cases oo <;> cases ho <;> simp [openStep, OFStream.openApp, OFStream.put, OFStream.good]

theorem openStep_frame (existing : List (Chunk F)) (oo ho : Bool) (n : Nat) :
    (openStep existing oo ho n).is_open = oo ∧ (openStep existing oo ho n).closes = 0 := by
  cases oo <;> cases ho <;> simp [openStep, OFStream.openApp, OFStream.put]

theorem openStep_disk (existing : List (Chunk F)) (oo ho : Bool) (n : Nat) :
    (openStep existing oo ho n).disk
      = if oo = true then
          (if ho = true then existing ++ [Chunk.line Line.header]
           else existing ++ leftover Line.header n)
        else existing := by
  cases oo <;> cases ho <;> simp [openStep, OFStream.openApp, OFStream.put]

theorem openStep_pending (existing : List (Chunk F)) (oo ho : Bool) (n : Nat) :
    (openStep existing oo ho n).pending
      = if oo = true ∧ ho = false then some Line.header else none := by
  cases oo <;> cases ho <;> simp [openStep, OFStream.openApp, OFStream.put, OFStream.pending]

theorem initState_file (inp : Input F) :
    (initState inp).csv_file.closes = 0 := (openStep_frame _ _ _ _).2

end Basic

/-! ## Facts about whole runs and about the text -/

section Runs
variable {F : Type}

/-! ### Pieces written by the loop and by `close()` -/

theorem timestamps_append (a b : List (Chunk F)) :
    timestamps (a ++ b) = timestamps a ++ timestamps b := by
  simp [timestamps, List.filterMap_append]

theorem timestamps_leftover (l : Line F) (n : Nat) : timestamps (leftover l n) = [] :=
  (leftover_no_line l n).2

theorem bodies_written (s : State F) (its : List (Iter F)) :
    ∃ new, (bodies s its).csv_file.disk = s.csv_file.disk ++ new
      ∧ List.Sublist
          (timestamps new ++ ((bodies s its).csv_file.pending.bind Line.timestamp?).toList)
          ((s.csv_file.pending.bind Line.timestamp?).toList
            ++ its.map (fun it => time_point_cast_ms it.now)) := by
  induction its generalizing s with
  | nil => exact ⟨[], by simp [bodies], by simp [bodies, timestamps]⟩
  | cons it rest ih =>
    rw [bodies_cons]
    cases hg : s.csv_file.good
    · -- failed stream: nothing changes
      have hb := bodies_of_failed s (it :: rest) hg
      rw [bodies_cons] at hb
      refine ⟨[], by rw [hb]; simp, ?_⟩
      rw [hb]
      simp [timestamps]
    · have hp : s.csv_file.pending = none := by
        rcases s with ⟨_, _, _, _, _, _, ⟨_, st, _, _⟩⟩
        cases st <;> simp_all [OFStream.good, OFStream.pending]
      obtain ⟨new, hnew, hsub⟩ := ih (body s it)
      rw [hp]
      simp only [Option.none_bind, Option.toList_none, List.nil_append, List.map_cons]
      have hcsv := body_csv_file s it
      cases hd : due s it.current_time
      · -- not due
        rw [hd] at hcsv
        simp only [Bool.false_eq_true, if_false] at hcsv
        rw [hcsv] at hnew hsub
        rw [hp] at hsub
        exact ⟨new, hnew, List.Sublist.cons _ (by simpa using hsub)⟩
      · rw [hd] at hcsv
        simp only [if_true] at hcsv
        have hdisk := put_disk s.csv_file
          (rowOf (listen s it.events) (time_point_cast_ms it.now)) it.write_ok it.accepted
        have hpend := put_pending s.csv_file
          (rowOf (listen s it.events) (time_point_cast_ms it.now)) it.write_ok it.accepted
        rw [← hcsv] at hdisk hpend
        rw [hg] at hdisk hpend
        simp only [true_and, if_true] at hdisk hpend
        cases ho : s.csv_file.is_open
        · -- stream without file
          rw [ho] at hdisk hpend
          simp only [Bool.false_eq_true, if_false, false_and] at hdisk hpend
          rw [hdisk] at hnew
          rw [hpend] at hsub
          exact ⟨new, hnew, List.Sublist.cons _ (by simpa using hsub)⟩
        · rw [ho] at hdisk hpend
          simp only [if_true, true_and] at hdisk hpend
          cases hw : it.write_ok
          · -- the write fails
            rw [hw] at hdisk hpend
            simp only [Bool.false_eq_true, if_false, if_true] at hdisk hpend
            have hbad : (body s it).csv_file.good = false := by
              rw [body_good, hd, hw]; simp
            have hkeep := bodies_of_failed (body s it) rest hbad
            refine ⟨leftover (rowOf (listen s it.events) (time_point_cast_ms it.now))
              it.accepted, by rw [hkeep, hdisk], ?_⟩
            rw [hkeep, hpend, timestamps_leftover]
            simp [rowOf, Line.timestamp?]
          · -- the write succeeds
            rw [hw] at hdisk hpend
            simp only [if_true, Bool.true_eq_false, if_false] at hdisk hpend
            rw [hdisk] at hnew
            rw [hpend] at hsub
            refine ⟨Chunk.line (rowOf (listen s it.events) (time_point_cast_ms it.now))
              :: new, by rw [hnew]; simp, ?_⟩
            have : timestamps (Chunk.line (rowOf (listen s it.events)
                (time_point_cast_ms it.now)) :: new)
                = time_point_cast_ms it.now :: timestamps new := by
              simp [timestamps, Chunk.timestamp?, rowOf, Line.timestamp?]
            rw [this]
            exact List.Sublist.cons₂ _ (by simpa using hsub)

theorem timestamps_line (l : Line F) :
    timestamps [Chunk.line l] = (l.timestamp?).toList := by
  cases h : l.timestamp? <;> simp [timestamps, Chunk.timestamp?, h]

theorem close_written (f : OFStream F) (ok : Bool) (n : Nat) :
    ∃ extra, (f.close ok n).disk = f.disk ++ extra
      ∧ List.Sublist (timestamps extra) ((f.pending.bind Line.timestamp?).toList)
      ∧ (extra.filter Chunk.isLine).length ≤ (if f.pending.isSome then 1 else 0) := by
  refine ⟨_, close_disk f ok n, ?_, ?_⟩
  · cases f.is_open
    · simp [timestamps]
    · cases hp : f.pending with
      | none => simp [timestamps]
      | some l =>
        cases ok
        · simp [timestamps_leftover]
        · simp only [if_true, Option.some_bind]
          rw [timestamps_line]
  · cases f.is_open
    · simp
    · cases hp : f.pending with
      | none => simp
      | some l =>
        cases ok
        · simp [(leftover_no_line _ _).1]
        · simp [Chunk.isLine]

theorem body_pending (s : State F) (it : Iter F) :
    (body s it).csv_file.pending
      = if due s it.current_time = true then
          (if s.csv_file.good = true then
            (if s.csv_file.is_open = true ∧ it.write_ok = false then
              some (rowOf (listen s it.events) (time_point_cast_ms it.now))
            else none)
          else s.csv_file.pending)
        else s.csv_file.pending := by
  rw [body_csv_file]
  cases hd : due s it.current_time <;> simp [put_pending]

theorem body_written (s : State F) (it : Iter F) :
    ∃ w, (body s it).csv_file.disk = s.csv_file.disk ++ w
      ∧ (w.filter Chunk.isLine).length
          + (if (body s it).csv_file.pending.isSome then 1 else 0) ≤ 1 := by
  have hdisk := body_disk s it
  have hpend := body_pending s it
  have triv : ∀ o : Option (Line F),
      (([] : List (Chunk F)).filter Chunk.isLine).length
        + (if o.isSome then 1 else 0) ≤ 1 := by
    intro o
    simp only [List.filter_nil, List.length_nil, Nat.zero_add]
    split <;> omega
  cases hd : due s it.current_time
  · exact ⟨[], by rw [hdisk, hd]; simp, triv _⟩
  · cases hg : s.csv_file.good
    · exact ⟨[], by rw [hdisk, hg]; simp, triv _⟩
    · cases ho : s.csv_file.is_open
      · exact ⟨[], by rw [hdisk, ho]; simp, triv _⟩
      · cases hw : it.write_ok
        · refine ⟨leftover (rowOf (listen s it.events) (time_point_cast_ms it.now))
            it.accepted, by rw [hdisk, hd, hg, ho, hw]; simp, ?_⟩
          rw [hpend, hd, hg, ho, hw]
          simp [(leftover_no_line _ _).1]
        · refine ⟨[Chunk.line (rowOf (listen s it.events) (time_point_cast_ms it.now))],
            by rw [hdisk, hd, hg, ho, hw]; simp, ?_⟩
          rw [hpend, hd, hg, ho, hw]
          simp [Chunk.isLine]

theorem appended_piece (s : State F) (it : Iter F) (c : Chunk F)
    (h : (body s it).csv_file.disk = s.csv_file.disk ++ [c]) :
    c = Chunk.line (rowOf (body s it) (time_point_cast_ms it.now))
      ∨ ∃ n, c = Chunk.part (rowOf (body s it) (time_point_cast_ms it.now)) n := by
  have hrow : rowOf (listen s it.events) (time_point_cast_ms it.now)
      = rowOf (body s it) (time_point_cast_ms it.now) := by
    have h1 := body_emg_data s it
    have h2 := body_imu s it
    simp only [Prod.mk.injEq] at h2
    simp only [rowOf, h1, h2.1, h2.2.1, h2.2.2]
  rw [body_disk, hrow] at h
  split at h
  · split at h
    · have h' := List.append_cancel_left h
      simp only [List.cons.injEq, and_true] at h'
      exact Or.inl h'.symm
    · have h' := List.append_cancel_left h
      unfold leftover at h'
      split at h'
      · simp at h'
      · simp only [List.cons.injEq, and_true] at h'
        exact Or.inr ⟨_, h'.symm⟩
  · have := congrArg List.length h
    simp at this

theorem uptoSignal_sublist (its : List (Iter F)) : List.Sublist (uptoSignal its) its := by
  induction its with
  | nil => simp [uptoSignal]
  | cons it rest ih =>
    simp only [uptoSignal]
    split
    · exact List.Sublist.cons₂ _ (List.nil_sublist _)
    · exact List.Sublist.cons₂ _ ih

theorem executed_sublist (inp : Input F) : List.Sublist (executed inp) inp.iters := by
  unfold executed
  split
  · exact List.nil_sublist _
  · exact uptoSignal_sublist _

theorem exit_code_of_main (inp : Input F) (r : Result F) (hr : main inp = some r) :
    r.exit_code = if inp.connected = true then 0 else 1 := by
  by_cases hc : inp.connected = true
  · obtain ⟨s, -, hfin⟩ := main_connected inp r hc hr
    rw [hfin]; simp [finish, hc]
  · rw [main_not_connected inp r hc hr]
    simp [hc]

/-! ### Agreement with the documented design when no write fails -/

theorem latest_body (s : State F) (it : Iter F) :
    (body s it).latest = s.latest.absorb it.events := by
  have h1 := body_emg_data s it
  have h2 := body_imu s it
  rw [listen_emg_data] at h1
  rw [listen_imu] at h2
  simp only [Prod.ext_iff] at h2
  simp only [State.latest, Latest.absorb, h1, h2.1, h2.2.1, h2.2.2]

theorem bodies_expected (s : State F) (its : List (Iter F))
    (hg : s.csv_file.good = true) (ho : s.csv_file.is_open = true)
    (hw : ∀ x ∈ its, x.write_ok = true) :
    (bodies s its).csv_file.disk
        = s.csv_file.disk ++ (expectedRows s.latest s.last_write_time its).map Chunk.line
      ∧ (bodies s its).csv_file.good = true := by
  induction its generalizing s with
  | nil => simp [bodies, expectedRows, hg]
  | cons it rest ih =>
    have hwi : it.write_ok = true := hw it (List.mem_cons_self _ _)
    have hg' : (body s it).csv_file.good = true := by
      rw [body_good, hg, ho, hwi]; simp
    have ho' : (body s it).csv_file.is_open = true := by
      rw [(body_file_frame s it).1]; exact ho
    obtain ⟨h1, h2⟩ := ih (body s it) hg' ho' (fun x hx => hw x (List.mem_cons_of_mem _ hx))
    rw [bodies_cons]
    refine ⟨?_, h2⟩
    rw [h1, latest_body, body_last_write_time, body_disk]
    have hrow : rowOf (listen s it.events) (time_point_cast_ms it.now)
        = Line.row (it.now.tdiv 1000000) (s.latest.absorb it.events).emg
            (s.latest.absorb it.events).ori (s.latest.absorb it.events).acc
            (s.latest.absorb it.events).gyr := by
      have e := latest_body s it
      have e1 := body_emg_data s it
      have e2 := body_imu s it
      simp only [Prod.ext_iff] at e2
      rw [← e]
      simp only [rowOf, State.latest, time_point_cast_ms, e1, e2.1, e2.2.1, e2.2.2]
    by_cases hd : due s it.current_time = true
    · have hge := (due_iff s it.current_time).1 hd
      simp only [hd, hg, ho, hwi, and_self, if_true, expectedRows, hge, List.map_cons, hrow]
      simp
    · have hlt : ¬ it.current_time - s.last_write_time ≥ 10000000 :=
        fun h => hd ((due_iff s it.current_time).2 h)
      simp only [hd, false_and, if_false, expectedRows, hlt]
      simp

/-! ### Independence of the control flow from file failures -/

theorem control_body (s s' : State F) (it : Iter F) (b : Bool) (h : control s = control s') :
    control (body s it) = control (body s' { it with write_ok := b }) := by
  simp only [control, Prod.mk.injEq] at h
  obtain ⟨h1, h2, h3, h4, h5, h6⟩ := h
  have hi := body_imu s it
  have hi' := body_imu s' { it with write_ok := b }
  rw [listen_imu] at hi hi'
  simp only [Prod.ext_iff] at hi hi'
  have hd : due s it.current_time = due s' it.current_time := by
    simp [due, h6]
  simp only [control, Prod.mk.injEq]
  refine ⟨?_, ?_, ?_, ?_, ?_, ?_⟩
  · rw [body_stop, body_stop, h1]
  · rw [body_emg_data, body_emg_data, listen_emg_data, listen_emg_data, h2]
  · rw [hi.1, hi'.1, h3, h4, h5]
  · rw [hi.2.1, hi'.2.1, h3, h4, h5]
  · rw [hi.2.2, hi'.2.2, h3, h4, h5]
  · rw [body_last_write_time, body_last_write_time, hd, h6]

theorem control_loop (s s' : State F) (its : List (Iter F)) (h : control s = control s') :
    (loop s its).map control = (loop s' (its.map Iter.withoutFailure)).map control := by
  induction its generalizing s s' with
  | nil =>
    have hs : s.stop = s'.stop := by simp only [control, Prod.mk.injEq] at h; exact h.1
    by_cases h0 : s.stop ≠ 0
    · have h0' : s'.stop ≠ 0 := hs ▸ h0
      simp [loop, h0, h0', h]
    · have h0' : ¬ s'.stop ≠ 0 := hs ▸ h0
      simp [loop, h0, h0']
  | cons it rest ih =>
    have hs : s.stop = s'.stop := by simp only [control, Prod.mk.injEq] at h; exact h.1
    by_cases h0 : s.stop ≠ 0
    · have h0' : s'.stop ≠ 0 := hs ▸ h0
      rw [loop_of_stop s _ h0, loop_of_stop s' _ h0']
      simp [h]
    · have h1 : s.stop = 0 := by simpa using h0
      have h1' : s'.stop = 0 := hs ▸ h1
      rw [List.map_cons, loop_cons_of_running s it rest h1,
        loop_cons_of_running s' _ _ h1']
      exact ih _ _ (control_body s s' it true h)


/-! ### Characters of the numbers -/

theorem digitChar_ne (c : Char) (h : ∀ k, k ≤ 16 → Nat.digitChar k ≠ c) (n : Nat) :
    Nat.digitChar n ≠ c := by
  by_cases hn : n ≤ 16
  · exact h n hn
  · obtain ⟨k, rfl⟩ : ∃ k, n = k + 17 := ⟨n - 17, by omega⟩
    have e : Nat.digitChar (k + 17) = Nat.digitChar 16 := by
      simp [Nat.digitChar]
    rw [e]
    exact h 16 (le_refl _)

theorem toDigitsCore_not_mem (c : Char) (h : ∀ k, k ≤ 16 → Nat.digitChar k ≠ c)
    (b fuel n : Nat) (ds : List Char) (hds : c ∉ ds) :
    c ∉ Nat.toDigitsCore b fuel n ds := by
  induction fuel generalizing n ds with
  | zero => simpa [Nat.toDigitsCore] using hds
  | succ fuel ih =>
    have hc : c ∉ Nat.digitChar (n % b) :: ds := by
      simp only [List.mem_cons, not_or]
      exact ⟨fun e => digitChar_ne c h _ e.symm, hds⟩
    simp only [Nat.toDigitsCore]
    split_ifs
    · exact hc
    · exact ih _ _ hc

theorem repr_not_mem (c : Char) (h : ∀ k, k ≤ 16 → Nat.digitChar k ≠ c) (n : Nat) :
    c ∉ (Nat.repr n).data := by
  show c ∉ (Nat.toDigits 10 n)
  exact toDigitsCore_not_mem c h _ _ _ _ (by simp)

theorem showInt_not_mem (c : Char) (h : ∀ k, k ≤ 16 → Nat.digitChar k ≠ c) (hm : c ≠ '-')
    (n : Int) : c ∉ (showInt n).data := by
  cases n with
  | ofNat m => exact repr_not_mem c h m
  | negSucc m =>
    show c ∉ ("-" ++ Nat.repr (m + 1)).data
    rw [String.data_append]
    simp only [List.mem_append, not_or]
    exact ⟨by simpa using hm, repr_not_mem c h _⟩

theorem showInt_no_comma (n : Int) : ',' ∉ (showInt n).data :=
  showInt_not_mem ',' (by decide) (by decide) n

theorem showInt_no_newline (n : Int) : '\n' ∉ (showInt n).data :=
  showInt_not_mem '\n' (by decide) (by decide) n

theorem showFrac_no_comma (q : Rat) : ',' ∉ (showFrac q).data := by
  unfold showFrac
  rw [String.data_append, String.data_append]
  simp only [List.mem_append, not_or]
  exact ⟨⟨showInt_no_comma _, by decide⟩, showInt_no_comma _⟩

theorem showFrac_no_newline (q : Rat) : '\n' ∉ (showFrac q).data := by
  unfold showFrac
  rw [String.data_append, String.data_append]
  simp only [List.mem_append, not_or]
  exact ⟨⟨showInt_no_newline _, by decide⟩, showInt_no_newline _⟩

/-! ### Text of a row -/

theorem rowText_data (showF : F → String) (ts : Int) (emg : Fin 8 → Int)
    (ori : Fin 4 → F) (acc : Fin 3 → F) (gyr : Fin 3 → F) :
    (rowText showF ts emg ori acc gyr).data
      = List.intercalate [','] ((rowFields showF ts emg ori acc gyr).map String.data) := by
  have h8 : List.finRange 8 = [0, 1, 2, 3, 4, 5, 6, 7] := by decide
  simp [rowText, rowFields, h8, List.intercalate, List.intersperse, String.data_append]

theorem rowText_fields (showF : F → String) (hF : ∀ x, ',' ∉ (showF x).data)
    (ts : Int) (emg : Fin 8 → Int) (ori : Fin 4 → F) (acc : Fin 3 → F) (gyr : Fin 3 → F) :
    csvFields (rowText showF ts emg ori acc gyr) = rowFields showF ts emg ori acc gyr := by
  rw [csvFields, String.split_of_valid, rowText_data]
  have hx : ∀ l ∈ (rowFields showF ts emg ori acc gyr).map String.data, ',' ∉ l := by
    intro l hl
    simp only [rowFields, List.map_cons, List.map_nil, List.mem_cons, List.mem_singleton,
      List.not_mem_nil, or_false] at hl
    rcases hl with h | h | h | h | h | h | h | h | h | h | h | h | h | h | h | h | h | h | h <;>
      rw [h] <;> first | exact showInt_no_comma _ | exact hF _
  have hne : (rowFields showF ts emg ori acc gyr).map String.data ≠ [] := by
    simp [rowFields]
  have h := List.splitOn_intercalate _ ',' hx hne
  unfold List.splitOn at h
  rw [h, List.map_map]
  have hid : (String.mk ∘ String.data) = id := by
    funext s
    rfl
  rw [hid, List.map_id]

theorem rowText_no_newline (showF : F → String) (hN : ∀ x, '\n' ∉ (showF x).data)
    (ts : Int) (emg : Fin 8 → Int) (ori : Fin 4 → F) (acc : Fin 3 → F) (gyr : Fin 3 → F) :
    '\n' ∉ (rowText showF ts emg ori acc gyr).data := by
  rw [rowText_data]
  simp [rowFields, List.intercalate, List.intersperse, showInt_no_newline, hN]

theorem headerText_no_newline : '\n' ∉ headerText.data := by decide

/-! ### Lines of a text -/

theorem textLines_newline (cs : List Char) : textLines ('\n' :: cs) = [] :: textLines cs := by
  simp [textLines]

theorem textLines_other_nil (c : Char) (cs : List Char) (hc : c ≠ '\n')
    (h : textLines cs = []) : textLines (c :: cs) = [[c]] := by
  simp [textLines, hc, h]

theorem textLines_other_cons (c : Char) (cs l : List Char) (ls : List (List Char))
    (hc : c ≠ '\n') (h : textLines cs = l :: ls) : textLines (c :: cs) = (c :: l) :: ls := by
  simp [textLines, hc, h]

theorem textLines_ne_nil (cs : List Char) (h : cs ≠ []) : textLines cs ≠ [] := by
  cases cs with
  | nil => exact absurd rfl h
  | cons c cs =>
    by_cases hc : c = '\n'
    · subst hc; rw [textLines_newline]; simp
    · cases hl : textLines cs with
      | nil => rw [textLines_other_nil c cs hc hl]; simp
      | cons l ls => rw [textLines_other_cons c cs l ls hc hl]; simp

theorem terminated_cons (c : Char) (cs : List Char) (h : cs ≠ []) :
    terminated (c :: cs) = terminated cs := by
  cases cs with
  | nil => exact absurd rfl h
  | cons d ds => simp [terminated, List.getLast?_cons_cons]

theorem terminated_line (t : List Char) : terminated (t ++ ['\n']) = true := by
  simp [terminated, List.getLast?_append]

theorem textLines_append_of_terminated (a b : List Char) (h : terminated a = true) :
    textLines (a ++ b) = textLines a ++ textLines b := by
  induction a with
  | nil => simp [textLines]
  | cons c cs ih =>
    by_cases hcs : cs = []
    · subst hcs
      have hc : c = '\n' := by simpa [terminated] using h
      subst hc
      simp [textLines]
    · have ht : terminated cs = true := by rw [← terminated_cons c cs hcs]; exact h
      have hne := textLines_ne_nil cs hcs
      rw [List.cons_append]
      by_cases hc : c = '\n'
      · subst hc
        rw [textLines_newline, textLines_newline, ih ht, List.cons_append]
      · cases hl : textLines cs with
        | nil => exact absurd hl hne
        | cons l ls =>
          have e : textLines (cs ++ b) = l :: (ls ++ textLines b) := by rw [ih ht, hl]; rfl
          rw [textLines_other_cons c _ _ _ hc e, textLines_other_cons c _ _ _ hc hl]
          rfl

theorem textLines_line (t : List Char) (h : '\n' ∉ t) : textLines (t ++ ['\n']) = [t] := by
  induction t with
  | nil => simp [textLines]
  | cons c t ih =>
    simp only [List.mem_cons, not_or] at h
    have hc : c ≠ '\n' := fun e => h.1 e.symm
    rw [List.cons_append, textLines_other_cons c _ _ _ hc (ih h.2)]

theorem textLines_lines (ts : List (List Char)) (h : ∀ t ∈ ts, '\n' ∉ t) :
    textLines ((ts.map (fun t => t ++ ['\n'])).flatten) = ts := by
  induction ts with
  | nil => simp [textLines]
  | cons t ts ih =>
    simp only [List.map_cons, List.flatten_cons]
    rw [textLines_append_of_terminated _ _ (terminated_line t),
      textLines_line t (h t (List.mem_cons_self _ _)),
      ih (fun x hx => h x (List.mem_cons_of_mem _ hx))]
    rfl

theorem textLines_glue (a t : List Char) (ha : a ≠ []) (hu : terminated a = false)
    (ht : '\n' ∉ t) :
    textLines (a ++ (t ++ ['\n']))
      = (textLines a).dropLast ++ [((textLines a).getLast?).getD [] ++ t] := by
  induction a with
  | nil => exact absurd rfl ha
  | cons c cs ih =>
    by_cases hcs : cs = []
    · subst hcs
      have hc : c ≠ '\n' := by simpa [terminated] using hu
      have e1 : textLines [c] = [[c]] := textLines_other_nil c [] hc rfl
      rw [List.cons_append, List.nil_append,
        textLines_other_cons c _ _ _ hc (textLines_line t ht), e1]
      rfl
    · have hu' : terminated cs = false := by rw [← terminated_cons c cs hcs]; exact hu
      have hne := textLines_ne_nil cs hcs
      have ih' := ih hcs hu'
      rw [List.cons_append]
      cases hl : textLines cs with
      | nil => exact absurd hl hne
      | cons l ls =>
        rw [hl] at ih'
        cases ls with
        | nil =>
          have e : textLines (cs ++ (t ++ ['\n'])) = [l ++ t] := by rw [ih']; rfl
          by_cases hc : c = '\n'
          · subst hc
            rw [textLines_newline, textLines_newline, e, hl]
            rfl
          · rw [textLines_other_cons c _ _ _ hc e, textLines_other_cons c _ _ _ hc hl]
            rfl
        | cons l2 ls2 =>
          have e : textLines (cs ++ (t ++ ['\n']))
              = l :: ((l2 :: ls2).dropLast ++ [((l2 :: ls2).getLast?).getD [] ++ t]) := by
            rw [ih']
            simp [List.dropLast, List.getLast?_cons_cons]
          by_cases hc : c = '\n'
          · subst hc
            rw [textLines_newline, textLines_newline, e, hl]
            simp [List.dropLast, List.getLast?_cons_cons]
          · rw [textLines_other_cons c _ _ _ hc e, textLines_other_cons c _ _ _ hc hl]
            simp [List.dropLast, List.getLast?_cons_cons]

/-! ### Lines of the file -/

theorem fileChars_append (showF : F → String) (a b : List (Chunk F)) :
    fileChars showF (a ++ b) = fileChars showF a ++ fileChars showF b := by
  simp [fileChars]

theorem fileChars_line (showF : F → String) (l : Line F) :
    fileChars showF [Chunk.line l] = (l.render showF).data ++ ['\n'] := by
  simp [fileChars, Chunk.chars]

theorem terminated_snoc_line (showF : F → String) (d : List (Chunk F)) (l : Line F) :
    terminated (fileChars showF (d ++ [Chunk.line l])) = true := by
  rw [fileChars_append, fileChars_line, ← List.append_assoc]
  exact terminated_line _

theorem render_no_newline (showF : F → String) (hN : ∀ x, '\n' ∉ (showF x).data)
    (l : Line F) (hl : l.timestamp?.isSome = true ∨ l = Line.header) :
    '\n' ∉ (l.render showF).data := by
  cases l with
  | header => exact headerText_no_newline
  | row ts emg ori acc gyr => exact rowText_no_newline showF hN ts emg ori acc gyr
  | text s => simp [Line.timestamp?] at hl

theorem fileLines_lines (showF : F → String) (ls : List (Line F))
    (h : ∀ l ∈ ls, '\n' ∉ (l.render showF).data) :
    fileLines showF (ls.map Chunk.line) = ls.map (fun l => (l.render showF).data) := by
  have e : fileChars showF (ls.map Chunk.line)
      = ((ls.map (fun l => (l.render showF).data)).map (fun t => t ++ ['\n'])).flatten := by
    simp [fileChars, List.map_map, Function.comp_def, Chunk.chars]
  rw [fileLines, e, textLines_lines]
  intro t ht
  obtain ⟨l, hl, rfl⟩ := List.mem_map.1 ht
  exact h l hl

theorem expectedRows_isRow (c : Latest F) (b : Int) (its : List (Iter F)) :
    ∀ l ∈ expectedRows c b its, l.timestamp?.isSome = true := by
  induction its generalizing c b with
  | nil => simp [expectedRows]
  | cons it rest ih =>
    intro l hl
    simp only [expectedRows] at hl
    split at hl
    · rcases List.mem_cons.1 hl with h | h
      · rw [h]; rfl
      · exact ih _ _ l h
    · exact ih _ _ l hl

end Runs

/-! ## The properties -/

section Properties
variable {F : Type}

/-- C1 (last value wins). Whenever an iteration appends a piece to the file,
after any sequence of earlier iterations from any state, that piece is a data
row (complete, or cut short by a failing write) whose eight EMG fields are
exactly the last EMG sample delivered up to and including this iteration's
`listen()` (when there is one), and whose orientation, accelerometer and
gyroscope fields are exactly the three arguments of the last IMU callback
delivered up to then (when there is one). -/
theorem last_value_wins (s0 : State F) (its : List (Iter F)) (it : Iter F) (c : Chunk F)
    (hemit : (bodies s0 (its ++ [it])).csv_file.disk
      = (bodies s0 its).csv_file.disk ++ [c]) :
    ∃ emg ori acc gyr,
      (c = Chunk.line (Line.row (time_point_cast_ms it.now) emg ori acc gyr)
        ∨ ∃ n, c = Chunk.part (Line.row (time_point_cast_ms it.now) emg ori acc gyr) n)
      ∧ (∀ sample, lastEmg (delivered (its ++ [it])) = some sample → emg = sample)
      ∧ (∀ o a g, lastImu (delivered (its ++ [it])) = some (o, a, g) →
          ori = o ∧ acc = a ∧ gyr = g) := by
  have hc := appended_piece (bodies s0 its) it c (by rw [← bodies_snoc]; exact hemit)
  refine ⟨_, _, _, _, hc, ?_, ?_⟩
  · intro sample hs
    rw [← bodies_snoc, bodies_emg_data, listen_emg_data, hs]
    rfl
  · intro o a g hs
    have h := bodies_imu s0 (its ++ [it])
    rw [listen_imu, hs] at h
    simp only [Option.getD_some, Prod.mk.injEq] at h
    rw [← bodies_snoc]
    exact h

/-- Witness for C1: the scenario with the EMG update at 2 ms, the IMU update at
4 ms and the cadence check at 10 ms. -/
theorem last_value_wins_witness :
    (bodies (initState scenarioInput) (scenarioPre ++ [scenarioTick])).csv_file.disk
        = (bodies (initState scenarioInput) scenarioPre).csv_file.disk
          ++ [Chunk.line scenarioRow]
      ∧ ∃ emg ori acc gyr,
          (Chunk.line scenarioRow
              = Chunk.line (Line.row (time_point_cast_ms scenarioTick.now) emg ori acc gyr)
            ∨ ∃ n, Chunk.line scenarioRow
              = Chunk.part (Line.row (time_point_cast_ms scenarioTick.now) emg ori acc gyr) n)
        ∧ (∀ sample, lastEmg (delivered (scenarioPre ++ [scenarioTick])) = some sample →
            emg = sample)
        ∧ (∀ o a g, lastImu (delivered (scenarioPre ++ [scenarioTick])) = some (o, a, g) →
            ori = o ∧ acc = a ∧ gyr = g) := by
  have h : (bodies (initState scenarioInput) (scenarioPre ++ [scenarioTick])).csv_file.disk
      = (bodies (initState scenarioInput) scenarioPre).csv_file.disk
        ++ [Chunk.line scenarioRow] := by
    have e : time_point_cast_ms 1700000000010000000 = 1700000000010 := by decide
    simp [bodies, body, listen, dispatch, onEmg_eq, onImu, writeIfDue, due_eq_decide, e,
      initState, openStep, OFStream.openApp, OFStream.put, scenarioInput,
      scenarioPre, scenarioTick, scenarioRow, rowOf, signal_handler]
  exact ⟨h, last_value_wins (initState scenarioInput) scenarioPre scenarioTick _ h⟩

/-- C2 (cadence monotonicity). In every run of the loop body from any state, two
iterations `i < j` that both append a piece to the file (a row, or the accepted
part of a row whose write fails) have steady-clock readings at least 10 ms
(10,000,000 ns) apart; this holds for consecutive emissions and for any other
pair, whatever the clock readings of the other iterations are. -/
theorem cadence_monotonicity (s0 : State F) (its : List (Iter F)) (i j : Nat) (hij : i < j)
    (hi : emitsAt s0 its i) (hj : emitsAt s0 its j) :
    timeAt its j - timeAt its i ≥ 10000000 := by
  obtain ⟨iti, hgi, hdi, -⟩ := (emitsAt_iff s0 its i).1 hi
  obtain ⟨itj, hgj, hdj, -⟩ := (emitsAt_iff s0 its j).1 hj
  rw [timeAt_of_get? its i iti hgi, timeAt_of_get? its j itj hgj]
  have hbase : (bodies s0 (its.take (i + 1))).last_write_time = iti.current_time := by
    rw [take_succ_of_get? its i iti hgi, bodies_snoc, body_last_write_time, hdi]
    simp
  have hsplit : its.take j = its.take (i + 1) ++ (its.take j).drop (i + 1) := by
    have h := (List.take_append_drop (i + 1) (its.take j)).symm
    rw [List.take_take, Nat.min_eq_left (by omega)] at h
    exact h
  have hge : iti.current_time ≤ (bodies s0 (its.take j)).last_write_time := by
    rw [hsplit, bodies_append, ← hbase]
    exact bodies_last_write_time_ge _ _
  have hdue := (due_iff _ _).1 hdj
  omega

/-- Witness for C2: rows are written at the cadence checks 10 ms and 20 ms after
the session start (iterations 0 and 2), none at 15 ms. -/
theorem cadence_monotonicity_witness :
    emitsAt (initState scenarioInput) cadenceRun 0
      ∧ ¬ emitsAt (initState scenarioInput) cadenceRun 1
      ∧ emitsAt (initState scenarioInput) cadenceRun 2
      ∧ timeAt cadenceRun 2 - timeAt cadenceRun 0 ≥ 10000000 := by
  have h0 : emitsAt (initState scenarioInput) cadenceRun 0 := by decide
  have h1 : ¬ emitsAt (initState scenarioInput) cadenceRun 1 := by decide
  have h2 : emitsAt (initState scenarioInput) cadenceRun 2 := by decide
  exact ⟨h0, h1, h2,
    cadence_monotonicity (initState scenarioInput) cadenceRun 0 2 (by decide) h0 h2⟩

/-- C3, as stated, fails: a first cadence check 1 ms after the baseline taken at
session start is not due, and the first iteration writes no row. -/
theorem first_check_not_due_counterexample :
    earlyIter.current_time ≥ scenarioInput.start_time
      ∧ due (listen (initState scenarioInput) earlyIter.events) earlyIter.current_time = false
      ∧ (body (initState scenarioInput) earlyIter).csv_file.disk
          = (initState scenarioInput).csv_file.disk := by
  refine ⟨by decide, ?_, ?_⟩
  · rw [due_listen, due_eq_decide]; decide
  · rw [body_disk, due_eq_decide]
    simp [initState, scenarioInput, earlyIter]

/-- C3 (amended). The first cadence check is due exactly when at least 10 ms have
elapsed since the baseline taken at session start.  Before that the first
iteration leaves the stream and the baseline unchanged.  From then on it moves
the baseline to its `current_time` and inserts one row, made of the timestamp
and the latest values: the row is appended to the file when the file was opened
and the header and the row are written successfully; when the write of the row
fails only the characters accepted before the error are appended; when the open
or the header write had failed nothing is appended. -/
theorem first_check_due_iff (inp : Input F) (it : Iter F) :
    (due (listen (initState inp) it.events) it.current_time = true
        ↔ it.current_time - inp.start_time ≥ 10000000)
      ∧ (it.current_time - inp.start_time < 10000000 →
          (body (initState inp) it).csv_file = (initState inp).csv_file
            ∧ (body (initState inp) it).last_write_time = inp.start_time)
      ∧ (it.current_time - inp.start_time ≥ 10000000 →
          (body (initState inp) it).last_write_time = it.current_time
            ∧ (inp.open_ok = true → inp.header_ok = true → it.write_ok = true →
                (body (initState inp) it).csv_file.disk
                  = (initState inp).csv_file.disk
                    ++ [Chunk.line (Line.row (it.now.tdiv 1000000)
                          ((lastEmg it.events).getD inp.emg0)
                          ((lastImu it.events).getD (inp.ori0, inp.acc0, inp.gyr0)).1
                          ((lastImu it.events).getD (inp.ori0, inp.acc0, inp.gyr0)).2.1
                          ((lastImu it.events).getD (inp.ori0, inp.acc0, inp.gyr0)).2.2)])
            ∧ (inp.open_ok = true → inp.header_ok = true → it.write_ok = false →
                (body (initState inp) it).csv_file.disk
                  = (initState inp).csv_file.disk
                    ++ leftover (Line.row (it.now.tdiv 1000000)
                          ((lastEmg it.events).getD inp.emg0)
                          ((lastImu it.events).getD (inp.ori0, inp.acc0, inp.gyr0)).1
                          ((lastImu it.events).getD (inp.ori0, inp.acc0, inp.gyr0)).2.1
                          ((lastImu it.events).getD (inp.ori0, inp.acc0, inp.gyr0)).2.2)
                        it.accepted)
            ∧ ((inp.open_ok = false ∨ inp.header_ok = false) →
                (body (initState inp) it).csv_file = (initState inp).csv_file)) := by
  have hlwt : (initState inp).last_write_time = inp.start_time := rfl
  have hgood : (initState inp).csv_file.good = (inp.open_ok && inp.header_ok) :=
    openStep_good _ _ _ _
  have hopen : (initState inp).csv_file.is_open = inp.open_ok := (openStep_frame _ _ _ _).1
  have hrow : rowOf (listen (initState inp) it.events) (time_point_cast_ms it.now)
      = Line.row (it.now.tdiv 1000000)
          ((lastEmg it.events).getD inp.emg0)
          ((lastImu it.events).getD (inp.ori0, inp.acc0, inp.gyr0)).1
          ((lastImu it.events).getD (inp.ori0, inp.acc0, inp.gyr0)).2.1
          ((lastImu it.events).getD (inp.ori0, inp.acc0, inp.gyr0)).2.2 := by
    have e1 := listen_emg_data (initState inp) it.events
    have e2 := listen_imu (initState inp) it.events
    simp only [Prod.ext_iff] at e2
    simp only [rowOf, time_point_cast_ms, e1, e2.1, e2.2.1, e2.2.2]
    rfl
  refine ⟨?_, ?_, ?_⟩
  · rw [due_listen, due_iff, hlwt]
  · intro h
    have hd : ¬ due (initState inp) it.current_time = true := by
      rw [due_iff, hlwt]; omega
    rw [body_csv_file, body_last_write_time]
    simp [hd, hlwt]
  · intro h
    have hd : due (initState inp) it.current_time = true := by
      rw [due_iff, hlwt]; exact h
    refine ⟨?_, ?_, ?_, ?_⟩
    · rw [body_last_write_time]; simp [hd]
    · intro ho hh hw
      rw [body_disk, hrow, hgood, hopen]
      simp [hd, ho, hh, hw]
    · intro ho hh hw
      rw [body_disk, hrow, hgood, hopen]
      simp [hd, ho, hh, hw]
    · intro hbad
      apply body_of_failed
      rw [hgood]
      rcases hbad with hb | hb <;> simp [hb]

/-- Witness for C3 (amended): a first check at 1 ms writes nothing; a first check
at 10 ms appends the row of the values held at that moment; when the write of
that row fails without any character being accepted, or when the file could not
be opened, the file is left as it was. -/
theorem first_check_due_iff_witness :
    (earlyIter.current_time - scenarioInput.start_time < 10000000
        ∧ (body (initState scenarioInput) earlyIter).csv_file
            = (initState scenarioInput).csv_file)
      ∧ (quietIter.current_time - scenarioInput.start_time ≥ 10000000
        ∧ (body (initState scenarioInput) quietIter).last_write_time = quietIter.current_time
        ∧ (body (initState scenarioInput) quietIter).csv_file.disk
            = (initState scenarioInput).csv_file.disk ++ [Chunk.line quietRow])
      ∧ (failingIter.current_time - scenarioInput.start_time ≥ 10000000
        ∧ failingIter.write_ok = false
        ∧ (body (initState scenarioInput) failingIter).csv_file.disk
            = (initState scenarioInput).csv_file.disk ++ leftover quietRow 0)
      ∧ (quietIter.current_time - unopenedInput.start_time ≥ 10000000
        ∧ unopenedInput.open_ok = false
        ∧ (body (initState unopenedInput) quietIter).csv_file
            = (initState unopenedInput).csv_file) :=
  ⟨⟨by decide, ((first_check_due_iff scenarioInput earlyIter).2.1 (by decide)).1⟩,
   ⟨by decide, ((first_check_due_iff scenarioInput quietIter).2.2 (by decide)).1,
    ((first_check_due_iff scenarioInput quietIter).2.2 (by decide)).2.1 rfl rfl rfl⟩,
   ⟨by decide, rfl,
    ((first_check_due_iff scenarioInput failingIter).2.2 (by decide)).2.2.1 rfl rfl rfl⟩,
   ⟨by decide, rfl,
    ((first_check_due_iff unopenedInput quietIter).2.2 (by decide)).2.2.2 (Or.inl rfl)⟩⟩

/-- C10, as stated, fails: on the stream left bad by a failed write, an
iteration whose cadence check is due (10 ms after the baseline, with a write
that would succeed) sets the baseline to its `current_time` but appends no
row. -/
theorem exact_due_counterexample :
    laterIter.current_time
        ≥ (body (initState failedWriteInput) failingIter).last_write_time
      ∧ laterIter.current_time
          - (body (initState failedWriteInput) failingIter).last_write_time ≥ 10000000
      ∧ laterIter.write_ok = true
      ∧ (body (body (initState failedWriteInput) failingIter) laterIter).last_write_time
          = laterIter.current_time
      ∧ (body (body (initState failedWriteInput) failingIter) laterIter).csv_file.disk
          = (body (initState failedWriteInput) failingIter).csv_file.disk := by
  have hl : (body (initState failedWriteInput) failingIter).last_write_time = 10000000 := by
    rw [body_last_write_time, due_eq_decide]; rfl
  have hb : (body (initState failedWriteInput) failingIter).csv_file.good = false := by
    rw [body_good, due_eq_decide]; rfl
  refine ⟨by rw [hl]; decide, by rw [hl]; decide, rfl, ?_, ?_⟩
  · rw [body_last_write_time, due_eq_decide, hl]; rfl
  · rw [body_of_failed _ _ hb]

/-- C10 (amended). The truncating conversion to milliseconds followed by `>= 10`
is equivalent to `current_time - last_write_time >= 10,000,000 ns`, for every
integer difference.  When it holds, the iteration sets `last_write_time` to its
`current_time` and inserts one row (the timestamp and the latest values) into
the stream: on a good, open stream with a successful write exactly that row is
appended to the file; when the write fails only the characters accepted before
the error are appended and the stream goes bad; on a stream that has already
failed the row is dropped, although the baseline still moves.  Otherwise the
stream and `last_write_time` are left unchanged. -/
theorem exact_due_condition (s : State F) (it : Iter F) :
    (duration_cast_ms (it.current_time - s.last_write_time) ≥ 10
        ↔ it.current_time - s.last_write_time ≥ 10000000)
      ∧ (it.current_time - s.last_write_time ≥ 10000000 →
          (body s it).last_write_time = it.current_time
            ∧ (body s it).csv_file
                = s.csv_file.put
                    (Line.row (it.now.tdiv 1000000)
                      ((lastEmg it.events).getD s.emg_data)
                      ((lastImu it.events).getD (s.ori_data, s.acc_data, s.gyr_data)).1
                      ((lastImu it.events).getD (s.ori_data, s.acc_data, s.gyr_data)).2.1
                      ((lastImu it.events).getD (s.ori_data, s.acc_data, s.gyr_data)).2.2)
                    it.write_ok it.accepted
            ∧ (s.csv_file.good = true → s.csv_file.is_open = true → it.write_ok = true →
                (body s it).csv_file.disk
                  = s.csv_file.disk
                    ++ [Chunk.line (Line.row (it.now.tdiv 1000000)
                      ((lastEmg it.events).getD s.emg_data)
                      ((lastImu it.events).getD (s.ori_data, s.acc_data, s.gyr_data)).1
                      ((lastImu it.events).getD (s.ori_data, s.acc_data, s.gyr_data)).2.1
                      ((lastImu it.events).getD (s.ori_data, s.acc_data, s.gyr_data)).2.2)])
            ∧ (s.csv_file.good = true → s.csv_file.is_open = true → it.write_ok = false →
                (body s it).csv_file.disk
                  = s.csv_file.disk
                    ++ leftover (Line.row (it.now.tdiv 1000000)
                      ((lastEmg it.events).getD s.emg_data)
                      ((lastImu it.events).getD (s.ori_data, s.acc_data, s.gyr_data)).1
                      ((lastImu it.events).getD (s.ori_data, s.acc_data, s.gyr_data)).2.1
                      ((lastImu it.events).getD (s.ori_data, s.acc_data, s.gyr_data)).2.2)
                      it.accepted
                  ∧ (body s it).csv_file.good = false)
            ∧ (s.csv_file.good = false → (body s it).csv_file = s.csv_file))
      ∧ (it.current_time - s.last_write_time < 10000000 →
          (body s it).csv_file = s.csv_file
            ∧ (body s it).last_write_time = s.last_write_time) := by
  have hrow : rowOf (listen s it.events) (time_point_cast_ms it.now)
      = Line.row (it.now.tdiv 1000000)
          ((lastEmg it.events).getD s.emg_data)
          ((lastImu it.events).getD (s.ori_data, s.acc_data, s.gyr_data)).1
          ((lastImu it.events).getD (s.ori_data, s.acc_data, s.gyr_data)).2.1
          ((lastImu it.events).getD (s.ori_data, s.acc_data, s.gyr_data)).2.2 := by
    have e1 := listen_emg_data s it.events
    have e2 := listen_imu s it.events
    simp only [Prod.ext_iff] at e2
    simp only [rowOf, time_point_cast_ms, e1, e2.1, e2.2.1, e2.2.2]
  refine ⟨tdiv_ms_ge_iff _, ?_, ?_⟩
  · intro h
    have hd : due s it.current_time = true := (due_iff s it.current_time).2 h
    refine ⟨?_, ?_, ?_, ?_, ?_⟩
    · rw [body_last_write_time]; simp [hd]
    · rw [body_csv_file, hrow]; simp [hd]
    · intro hg ho hw
      rw [body_disk, hrow]
      simp [hd, hg, ho, hw]
    · intro hg ho hw
      rw [body_disk, body_good, hrow]
      simp [hd, hg, ho, hw]
    · intro hg
      exact body_of_failed s it hg
  · intro h
    have hd : ¬ due s it.current_time = true := by
      rw [due_iff]; omega
    rw [body_csv_file, body_last_write_time]
    simp [hd]

/-- Witness for C10 (amended): the first check of the scenario input, 10 ms after
the session start, appends the row and moves the baseline; the check 1 ms after
the session start changes nothing; on the stream left bad by a failed write a
due check leaves the stream as it is. -/
theorem exact_due_condition_witness :
    (quietIter.current_time - (initState scenarioInput).last_write_time ≥ 10000000
        ∧ (body (initState scenarioInput) quietIter).last_write_time = quietIter.current_time
        ∧ (body (initState scenarioInput) quietIter).csv_file.disk
            = (initState scenarioInput).csv_file.disk ++ [Chunk.line quietRow])
      ∧ (earlyIter.current_time - (initState scenarioInput).last_write_time < 10000000
        ∧ (body (initState scenarioInput) earlyIter).csv_file
            = (initState scenarioInput).csv_file
        ∧ (body (initState scenarioInput) earlyIter).last_write_time
            = (initState scenarioInput).last_write_time)
      ∧ ((body (initState failedWriteInput) failingIter).csv_file.good = false
        ∧ (body (body (initState failedWriteInput) failingIter) laterIter).csv_file
            = (body (initState failedWriteInput) failingIter).csv_file) := by
  have h1 := (exact_due_condition (initState scenarioInput) quietIter).2.1 (by decide)
  have h2 := (exact_due_condition (initState scenarioInput) earlyIter).2.2 (by decide)
  have hl : (body (initState failedWriteInput) failingIter).last_write_time = 10000000 := by
    rw [body_last_write_time, due_eq_decide]; rfl
  have hb : (body (initState failedWriteInput) failingIter).csv_file.good = false := by
    rw [body_good, due_eq_decide]; rfl
  have h3 := (exact_due_condition (body (initState failedWriteInput) failingIter)
    laterIter).2.1 (by rw [hl]; decide)
  exact ⟨⟨by decide, h1.1, h1.2.2.1 rfl rfl rfl⟩, ⟨by decide, h2.1, h2.2⟩,
    ⟨hb, h3.2.2.2.2 hb⟩⟩

/-- C4, as stated, fails: opening a file that already holds the header line and
one row appends a second header line. -/
theorem header_duplicated_counterexample :
    earlierFile.head? = some (Chunk.line Line.header)
      ∧ (openStep earlierFile true true 0).disk
          = [Chunk.line Line.header, Chunk.line scenarioRow, Chunk.line Line.header]
      ∧ fileLines showFrac (openStep earlierFile true true 0).disk
          = [headerText.data, (scenarioRow.render showFrac).data, headerText.data]
      ∧ headerCount showFrac (openStep earlierFile true true 0).disk = 2 := by
  have hd : (openStep earlierFile true true 0).disk
      = [Line.header, scenarioRow, Line.header].map Chunk.line := rfl
  have hl : fileLines showFrac (openStep earlierFile true true 0).disk
      = [headerText.data, (scenarioRow.render showFrac).data, headerText.data] := by
    rw [hd, fileLines_lines]
    · rfl
    · intro l hl
      apply render_no_newline showFrac showFrac_no_newline
      simp only [List.mem_cons, List.mem_singleton, List.not_mem_nil, or_false] at hl
      rcases hl with h | h | h
      · exact Or.inr h
      · left; rw [h]; rfl
      · exact Or.inr h
  refine ⟨rfl, rfl, hl, ?_⟩
  have hne : ¬ (scenarioRow.render showFrac).data = headerText.data := by
    intro h
    have h0 := congrArg List.head? h
    revert h0
    decide
  rw [headerCount, hl]
  simp [List.count_cons, hne]

/-- C4 (amended). The open step writes the header text and a line terminator
right after the last character of the existing content, whether or not the file
is new.  When the existing content is empty or ends with a line terminator, the
file gains one header line at its end: the number of header lines grows by one,
and the file holds exactly one header line afterwards only if it held none
before, as a newly created file does.  When the last existing line is not
terminated, the header text is glued to the end of that line. -/
theorem header_appended_on_open (showF : F → String) (existing : List (Chunk F)) (n : Nat) :
    (openStep existing true true n).disk = existing ++ [Chunk.line Line.header]
      ∧ fileChars showF (openStep existing true true n).disk
          = fileChars showF existing ++ (headerText.data ++ ['\n'])
      ∧ (terminated (fileChars showF existing) = true →
          fileLines showF (openStep existing true true n).disk
              = fileLines showF existing ++ [headerText.data]
            ∧ headerCount showF (openStep existing true true n).disk
              = headerCount showF existing + 1
            ∧ (headerCount showF (openStep existing true true n).disk = 1
                ↔ headerCount showF existing = 0))
      ∧ (terminated (fileChars showF existing) = false →
          fileLines showF (openStep existing true true n).disk
            = (fileLines showF existing).dropLast
                ++ [((fileLines showF existing).getLast?).getD [] ++ headerText.data])
      ∧ fileLines showF (openStep ([] : List (Chunk F)) true true n).disk
          = [headerText.data] := by
  have hdisk : ∀ e : List (Chunk F),
      (openStep e true true n).disk = e ++ [Chunk.line Line.header] := by
    intro e; rw [openStep_disk]; simp
  have hchars : ∀ e : List (Chunk F), fileChars showF (openStep e true true n).disk
      = fileChars showF e ++ (headerText.data ++ ['\n']) := by
    intro e; rw [hdisk, fileChars_append, fileChars_line]; rfl
  refine ⟨hdisk existing, hchars existing, ?_, ?_, ?_⟩
  · intro ht
    have hl : fileLines showF (openStep existing true true n).disk
        = fileLines showF existing ++ [headerText.data] := by
      rw [fileLines, hchars, textLines_append_of_terminated _ _ ht,
        textLines_line _ headerText_no_newline]
      rfl
    have hcount : headerCount showF (openStep existing true true n).disk
        = headerCount showF existing + 1 := by
      rw [headerCount, hl, List.count_append]
      simp [headerCount]
    exact ⟨hl, hcount, by rw [hcount]; omega⟩
  · intro hu
    have hne : fileChars showF existing ≠ [] := by
      intro h; rw [h] at hu; simp [terminated] at hu
    rw [fileLines, hchars]
    exact textLines_glue _ _ hne hu headerText_no_newline
  · rw [fileLines, hchars]
    simpa [fileChars] using textLines_line _ headerText_no_newline

/-- Witness for C4 (amended): the file of an earlier session ends with a line
terminator and gains a header line; in a file whose only line `abc` is not
terminated, the header text is glued to that line. -/
theorem header_appended_on_open_witness :
    (terminated (fileChars showFrac earlierFile) = true
        ∧ headerCount showFrac (openStep earlierFile true true 0).disk
            = headerCount showFrac earlierFile + 1)
      ∧ (terminated (fileChars showFrac unterminatedFile) = false
        ∧ fileLines showFrac (openStep unterminatedFile true true 0).disk
            = [['a', 'b', 'c'] ++ headerText.data]) := by
  have h1 : terminated (fileChars showFrac earlierFile) = true :=
    terminated_snoc_line showFrac [Chunk.line Line.header] scenarioRow
  have h2 : terminated (fileChars showFrac unterminatedFile) = false := by decide
  refine ⟨⟨h1, ((header_appended_on_open showFrac earlierFile 0).2.2.1 h1).2.1⟩, ⟨h2, ?_⟩⟩
  rw [(header_appended_on_open showFrac unterminatedFile 0).2.2.2.1 h2]
  decide

/-- C8, as stated, fails: with no EMG callback before the first row, the EMG
fields of that row are the values the uninitialised `emg_data` happened to hold
(here 7), not zero. -/
theorem default_not_zero_counterexample :
    lastEmg (delivered [quietIter]) = none
      ∧ scenarioInput.emg0 0 = 7
      ∧ (body (initState scenarioInput) quietIter).csv_file.disk
          = [Chunk.line Line.header, Chunk.line quietRow]
      ∧ quietRow
          = Line.row 1700000000010 (fun _ => 7) (fun _ => 3) (fun _ => 4) (fun _ => 5) :=
  ⟨rfl, rfl, rfl, rfl⟩

/-- C8 (amended). When no EMG callback has been delivered by the time a row is
written, the eight EMG fields of that row are the values `emg_data` held at its
declaration, which the program does not initialise; the row is written like any
other and the exit code of `main` does not depend on it. -/
theorem default_before_first_sample (inp : Input F) (its : List (Iter F)) (it : Iter F)
    (c : Chunk F)
    (hemit : (bodies (initState inp) (its ++ [it])).csv_file.disk
      = (bodies (initState inp) its).csv_file.disk ++ [c])
    (hnone : lastEmg (delivered (its ++ [it])) = none) :
    (∃ ori acc gyr,
        c = Chunk.line (Line.row (time_point_cast_ms it.now) inp.emg0 ori acc gyr)
          ∨ ∃ n, c = Chunk.part (Line.row (time_point_cast_ms it.now) inp.emg0 ori acc gyr) n)
      ∧ (∀ r, main inp = some r → r.exit_code = if inp.connected = true then 0 else 1) := by
  refine ⟨?_, fun r hr => exit_code_of_main inp r hr⟩
  have hc := appended_piece (bodies (initState inp) its) it c
    (by rw [← bodies_snoc]; exact hemit)
  have h1 : (body (bodies (initState inp) its) it).emg_data = inp.emg0 := by
    rw [← bodies_snoc, bodies_emg_data, listen_emg_data, hnone]
    rfl
  rw [rowOf, h1] at hc
  exact ⟨_, _, _, hc⟩

/-- Witness for C8 (amended): the first row of a run without callbacks. -/
theorem default_before_first_sample_witness :
    (bodies (initState scenarioInput) ([] ++ [quietIter])).csv_file.disk
        = (bodies (initState scenarioInput) []).csv_file.disk ++ [Chunk.line quietRow]
      ∧ lastEmg (delivered ([] ++ [quietIter])) = none
      ∧ ∃ ori acc gyr,
          Chunk.line quietRow
            = Chunk.line
                (Line.row (time_point_cast_ms quietIter.now) scenarioInput.emg0 ori acc gyr)
          ∨ ∃ n, Chunk.line quietRow
            = Chunk.part
                (Line.row (time_point_cast_ms quietIter.now) scenarioInput.emg0 ori acc gyr) n :=
  ⟨rfl, rfl, (default_before_first_sample scenarioInput [] quietIter _ rfl rfl).1⟩

/-- C5 (shutdown completeness). In a run with a connected device: if SIGINT
arrives before the first test of the loop condition, no iteration runs; if it
first arrives during an iteration, that iteration is completed, no later
iteration runs, `main` returns, and from the start of that iteration to the end
of the run at most one more complete line reaches the file.  Whenever `main`
returns after the loop, the flag is still set and the file has been closed
exactly once, after the loop: the final content is the content at the exit of
the loop, followed only by what `close()` writes of a line still buffered after
a failed write (nothing when the stream is good).  No loop iteration resets the
flag. -/
theorem shutdown_completeness (inp : Input F) (hc : inp.connected = true) :
    (inp.sig_before = true →
        main inp = some (finish (initState inp) inp.close_ok inp.close_accepted))
      ∧ (∀ pre it post, inp.sig_before = false → inp.iters = pre ++ it :: post →
          (∀ x ∈ pre, x.sigint = false) → it.sigint = true →
          main inp = some (finish (body (bodies (initState inp) pre) it)
              inp.close_ok inp.close_accepted)
            ∧ ∃ extra,
                ((body (bodies (initState inp) pre) it).csv_file.close
                    inp.close_ok inp.close_accepted).disk
                  = (bodies (initState inp) pre).csv_file.disk ++ extra
                ∧ (extra.filter Chunk.isLine).length ≤ 1)
      ∧ (∀ r, main inp = some r → ∃ s sf, loop (initState inp) inp.iters = some s
          ∧ r.exit_code = 0 ∧ r.final = some sf ∧ sf.stop ≠ 0
          ∧ sf.csv_file.closes = 1 ∧ sf.csv_file.is_open = false
          ∧ sf.csv_file.disk
              = s.csv_file.disk
                ++ (if s.csv_file.is_open = true then
                      (match s.csv_file.pending with
                       | some l =>
                         if inp.close_ok = true then [Chunk.line l]
                         else leftover l inp.close_accepted
                       | none => [])
                    else [])
          ∧ (s.csv_file.good = true → sf.csv_file.disk = s.csv_file.disk))
      ∧ (∀ (s : State F) (x : Iter F), s.stop ≠ 0 → (body s x).stop ≠ 0) := by
  refine ⟨?_, ?_, ?_, ?_⟩
  · intro hb
    apply main_of_loop inp _ hc
    apply loop_of_stop
    simp [initState, hb]
  · intro pre it post hb hits hpre hit
    constructor
    · apply main_of_loop inp _ hc
      have h0 : (initState inp).stop = 0 := by simp [initState, hb]
      obtain ⟨h1, h2⟩ := loop_quiet_prefix (initState inp) pre (it :: post) h0 hpre
      rw [hits, h1, loop_cons_of_running _ it post h2]
      apply loop_of_stop
      rw [body_stop, hit]
      simp
    · obtain ⟨w, hw, hwn⟩ := body_written (bodies (initState inp) pre) it
      obtain ⟨extra, he, -, hen⟩ := close_written
        (body (bodies (initState inp) pre) it).csv_file inp.close_ok inp.close_accepted
      refine ⟨w ++ extra, by rw [he, hw, List.append_assoc], ?_⟩
      rw [List.filter_append, List.length_append]
      omega
  · intro r hr
    obtain ⟨s, hl, hfin⟩ := main_connected inp r hc hr
    obtain ⟨n, hn⟩ := loop_eq_bodies_take _ _ _ hl
    have hcl : s.csv_file.closes = 0 := by
      rw [hn, (bodies_file_frame _ _).2]
      exact initState_file inp
    have hstop : s.stop ≠ 0 := loop_stop _ _ _ hl
    have hfr := close_frame s.csv_file inp.close_ok inp.close_accepted
    refine ⟨s, { s with csv_file := s.csv_file.close inp.close_ok inp.close_accepted }, hl,
      ?_, ?_, hstop, ?_, hfr.1, close_disk _ _ _, ?_⟩
    · rw [hfin]; rfl
    · rw [hfin]; rfl
    · show (s.csv_file.close inp.close_ok inp.close_accepted).closes = 1
      rw [hfr.2, hcl]
    · intro hg
      apply close_of_no_pending
      rcases s with ⟨_, _, _, _, _, _, ⟨_, st, _, _⟩⟩
      cases st <;> simp_all [OFStream.good, OFStream.pending]
  · intro s x hs
    rw [body_stop]
    split
    · decide
    · exact hs

/-- Witness for C5: a run stopped before the loop starts, and the scenario run in
which SIGINT arrives during the third iteration, whose file is closed once. -/
theorem shutdown_completeness_witness :
    (stoppedEarlyInput.sig_before = true
        ∧ main stoppedEarlyInput
            = some (finish (initState stoppedEarlyInput) stoppedEarlyInput.close_ok
                stoppedEarlyInput.close_accepted))
      ∧ (scenarioInput.sig_before = false
        ∧ scenarioInput.iters = scenarioPre ++ scenarioTick :: []
        ∧ (∀ x ∈ scenarioPre, x.sigint = false) ∧ scenarioTick.sigint = true
        ∧ main scenarioInput
            = some (finish (body (bodies (initState scenarioInput) scenarioPre) scenarioTick)
                scenarioInput.close_ok scenarioInput.close_accepted))
      ∧ (∃ s sf, loop (initState scenarioInput) scenarioInput.iters = some s
          ∧ (finish (body (bodies (initState scenarioInput) scenarioPre) scenarioTick)
                scenarioInput.close_ok scenarioInput.close_accepted).final = some sf
          ∧ sf.stop ≠ 0 ∧ sf.csv_file.closes = 1 ∧ sf.csv_file.is_open = false
          ∧ (s.csv_file.good = true → sf.csv_file.disk = s.csv_file.disk)) := by
  have hq : ∀ x ∈ scenarioPre, x.sigint = false := by
    intro x hx
    simp only [scenarioPre, List.mem_cons, List.mem_singleton, List.not_mem_nil, or_false] at hx
    rcases hx with h | h <;> rw [h]
  have hm := ((shutdown_completeness scenarioInput rfl).2.1 scenarioPre scenarioTick [] rfl
    rfl hq rfl).1
  obtain ⟨s, sf, h1, -, h3, h4, h5, h6, -, h8⟩ :=
    (shutdown_completeness scenarioInput rfl).2.2.1 _ hm
  exact ⟨⟨rfl, (shutdown_completeness stoppedEarlyInput rfl).1 rfl⟩,
    ⟨rfl, rfl, hq, rfl, hm⟩, ⟨s, sf, h1, h3, h4, h5, h6, h8⟩⟩

/-- C6, as stated, fails: when the system clock is set back between two
emissions, the later row carries the smaller timestamp. -/
theorem row_ordering_counterexample :
    ((main clockSetBackInput).bind Result.final).map (fun s => timestamps s.csv_file.disk)
        = some [1700000000010, 1699999999020]
      ∧ ¬ ((1700000000010 : Int) ≤ 1699999999020) := by
  constructor
  · decide
  · decide

/-- C6 (amended). When the system-clock readings of the successive iterations are
non-decreasing, the timestamps of the rows that a run writes to the file are
non-decreasing in the order in which they are written. -/
theorem row_ordering (inp : Input F) (r : Result F) (sf : State F)
    (hmono : (inp.iters.map Iter.now).Pairwise (· ≤ ·))
    (hr : main inp = some r) (hf : r.final = some sf) :
    ∃ new, sf.csv_file.disk = (initState inp).csv_file.disk ++ new
      ∧ (timestamps new).Pairwise (· ≤ ·) := by
  obtain ⟨-, hsf⟩ := final_of_main inp r sf hr hf
  obtain ⟨new, hnew, hsub⟩ := bodies_written (initState inp) (executed inp)
  obtain ⟨extra, hextra, hsub2, -⟩ := close_written
    (bodies (initState inp) (executed inp)).csv_file inp.close_ok inp.close_accepted
  have hdisk : sf.csv_file.disk = (initState inp).csv_file.disk ++ (new ++ extra) := by
    rw [hsf]
    show ((bodies (initState inp) (executed inp)).csv_file.close
      inp.close_ok inp.close_accepted).disk = _
    rw [hextra, hnew, List.append_assoc]
  refine ⟨new ++ extra, hdisk, ?_⟩
  have hp0 : ((initState inp).csv_file.pending.bind Line.timestamp?).toList = [] := by
    show ((openStep _ _ _ _).pending.bind Line.timestamp?).toList = []
    rw [openStep_pending]
    split <;> simp [Line.timestamp?]
  rw [hp0, List.nil_append] at hsub
  have hall : (inp.iters.map (fun it => time_point_cast_ms it.now)).Pairwise (· ≤ ·) := by
    rw [List.pairwise_map] at hmono ⊢
    exact hmono.imp (fun h => tdiv_ms_mono h)
  have hexec : List.Sublist ((executed inp).map (fun it => time_point_cast_ms it.now))
      (inp.iters.map (fun it => time_point_cast_ms it.now)) :=
    (executed_sublist inp).map _
  rw [timestamps_append]
  exact hall.sublist (((List.Sublist.refl _).append hsub2).trans (hsub.trans hexec))

/-- Witness for C6 (amended): a run whose system clock advances and which writes
two rows, stamped 1700000000010 and 1700000000020. -/
theorem row_ordering_witness :
    (cadenceInput.iters.map Iter.now).Pairwise (· ≤ ·)
      ∧ timestamps
          ((bodies (initState cadenceInput) (executed cadenceInput)).csv_file.close
            cadenceInput.close_ok cadenceInput.close_accepted).disk
          = [1700000000010, 1700000000020]
      ∧ ∃ new,
          ((bodies (initState cadenceInput) (executed cadenceInput)).csv_file.close
            cadenceInput.close_ok cadenceInput.close_accepted).disk
            = (initState cadenceInput).csv_file.disk ++ new
          ∧ (timestamps new).Pairwise (· ≤ ·) := by
  have hm : (cadenceInput.iters.map Iter.now).Pairwise (· ≤ ·) := by decide
  have hr : main cadenceInput
      = some (finish (bodies (initState cadenceInput) (executed cadenceInput))
          cadenceInput.close_ok cadenceInput.close_accepted) := rfl
  exact ⟨hm, by decide, row_ordering cadenceInput _
    { bodies (initState cadenceInput) (executed cadenceInput) with
      csv_file := (bodies (initState cadenceInput) (executed cadenceInput)).csv_file.close
        cadenceInput.close_ok cadenceInput.close_accepted }
    hm hr rfl⟩

/-- C9, as stated, fails: after the write of the first row has failed, the loop
runs two more iterations whose cadence checks are due (the last one sets
`last_write_time` to 30 ms), the rows of those iterations are dropped, and
`main` returns 0; the file holds the header line only. -/
theorem write_failure_not_fatal_counterexample :
    (failedWriteInput.iters.map Iter.write_ok) = [false, true, true]
      ∧ (main failedWriteInput).map Result.exit_code = some 0
      ∧ ((main failedWriteInput).bind Result.final).map State.last_write_time = some 30000000
      ∧ ((main failedWriteInput).bind Result.final).map
          (fun s => (s.csv_file.disk.map Chunk.isLine, timestamps s.csv_file.disk,
            s.csv_file.good)) = some ([true], [], false) := by
  refine ⟨rfl, ?_, ?_, ?_⟩ <;> decide

/-- C9 (amended). A failed open, header write or row write is not detected.  The
exit code is 0 whenever the device was connected, the exit code and the final
values of all variables are those of the same run without any failure (so the
loop runs the same iterations and the same cadence checks), and once the stream
has failed no later iteration changes the file. -/
theorem write_failure_ignored (inp : Input F) :
    (∀ r, main inp = some r → r.exit_code = if inp.connected = true then 0 else 1)
      ∧ (main inp).map Result.outcome = (main inp.withoutFailures).map Result.outcome
      ∧ (∀ (s : State F) (its : List (Iter F)), s.csv_file.good = false →
          (bodies s its).csv_file.good = false
            ∧ (bodies s its).csv_file.disk = s.csv_file.disk) := by
  refine ⟨fun r hr => exit_code_of_main inp r hr, ?_,
    fun s its h => bodies_good_false s its h⟩
  by_cases hc : inp.connected = true
  · have hc' : inp.withoutFailures.connected = true := hc
    have h0 : control (initState inp) = control (initState inp.withoutFailures) := rfl
    have hl := control_loop (initState inp) (initState inp.withoutFailures) inp.iters h0
    have hits : inp.withoutFailures.iters = inp.iters.map Iter.withoutFailure := rfl
    rw [← hits] at hl
    unfold main
    simp only [hc, hc', if_true]
    cases h1 : loop (initState inp) inp.iters with
    | none =>
      cases h2 : loop (initState inp.withoutFailures) inp.withoutFailures.iters with
      | none => rfl
      | some b => rw [h1, h2] at hl; simp at hl
    | some a =>
      cases h2 : loop (initState inp.withoutFailures) inp.withoutFailures.iters with
      | none => rw [h1, h2] at hl; simp at hl
      | some b =>
        rw [h1, h2] at hl
        simp only [Option.map_some', Option.some.injEq] at hl
        simp only [Option.map_some', Option.some.injEq, Result.outcome, finish, Prod.mk.injEq,
          true_and]
        exact hl
  · have hc' : ¬ inp.withoutFailures.connected = true := hc
    unfold main
    simp [hc, hc']

/-- Witness for C9 (amended): the run whose first row write fails returns 0. -/
theorem write_failure_ignored_witness :
    (main failedWriteInput).map Result.exit_code = some 0
      ∧ ∀ r, main failedWriteInput = some r →
          r.exit_code = if failedWriteInput.connected = true then 0 else 1 :=
  ⟨by decide, (write_failure_ignored failedWriteInput).1⟩

/-- C7, as stated, fails.  In a run on a new file whose only row write fails
after five characters were accepted, the file ends with the truncated line
`17000`, which has a single field.  In a run on the file left by an earlier
session, the header written by the run is the third line of the file. -/
theorem persisted_format_counterexample :
    (tornWriteInput.existing = []
        ∧ ((main tornWriteInput).bind Result.final).map
            (fun s => fileLines showFrac s.csv_file.disk)
          = some [headerText.data, ['1', '7', '0', '0', '0']]
        ∧ (csvFields "17000").length = 1)
      ∧ ((main secondSessionInput).bind Result.final).map (fun s => s.csv_file.disk)
          = some [Chunk.line Line.header, Chunk.line scenarioRow,
                  Chunk.line Line.header, Chunk.line quietRow] := by
  refine ⟨⟨rfl, ?_, ?_⟩, rfl⟩
  · have hd : ((main tornWriteInput).bind Result.final).map (fun s => s.csv_file.disk)
        = some ([Chunk.line Line.header] ++ [Chunk.part quietRow 5]) := rfl
    have hm : ((main tornWriteInput).bind Result.final).map
          (fun s => fileLines showFrac s.csv_file.disk)
        = (((main tornWriteInput).bind Result.final).map (fun s => s.csv_file.disk)).map
            (fileLines showFrac) := by
      rw [Option.map_map]; rfl
    rw [hm, hd]
    simp only [Option.map_some', Option.some.injEq]
    rw [fileLines, fileChars_append, fileChars_line,
      textLines_append_of_terminated _ _ (terminated_line _),
      show (Line.render showFrac Line.header).data = headerText.data from rfl,
      textLines_line _ headerText_no_newline]
    have e : fileChars showFrac [Chunk.part quietRow 5] = ['1', '7', '0', '0', '0'] := by
      decide
    rw [e]
    rfl
  · rw [csvFields, String.split_of_valid]
    decide

/-- C7 (amended). The header text is exactly the nineteen documented names
separated by commas, without a trailing comma.  The text of every row has exactly
nineteen comma-separated fields: the timestamp, `emg_data[0..7]`,
`ori_data[0..3]`, `acc_data[0..2]`, `gyr_data[0..2]`, in the order of the header
(the stream's text for a floating point value contains no comma).  When the file
was opened and the header and every row are written successfully, what the run
adds after the existing content is the header line followed by one complete line
per emitted row, in emission order, each row holding the wall-clock time in
milliseconds and the latest values at its emission; so a newly created file
consists of the header line followed by one line per emitted row. -/
theorem persisted_format (showF : F → String) (hF : ∀ x, ',' ∉ (showF x).data)
    (hN : ∀ x, '\n' ∉ (showF x).data) :
    headerText = "Timestamp,EMG1,EMG2,EMG3,EMG4,EMG5,EMG6,EMG7,EMG8,OrientationW,OrientationX,OrientationY,OrientationZ,AccX,AccY,AccZ,GyroX,GyroY,GyroZ"
      ∧ csvFields (Line.render showF Line.header) = headerNames
      ∧ headerNames.length = 19
      ∧ (∀ ts emg ori acc gyr,
          csvFields (Line.render showF (Line.row ts emg ori acc gyr))
              = [showInt ts,
                 showInt (emg 0), showInt (emg 1), showInt (emg 2), showInt (emg 3),
                 showInt (emg 4), showInt (emg 5), showInt (emg 6), showInt (emg 7),
                 showF (ori 0), showF (ori 1), showF (ori 2), showF (ori 3),
                 showF (acc 0), showF (acc 1), showF (acc 2),
                 showF (gyr 0), showF (gyr 1), showF (gyr 2)]
            ∧ (csvFields (Line.render showF (Line.row ts emg ori acc gyr))).length = 19)
      ∧ (∀ (inp : Input F) (r : Result F) (sf : State F),
          main inp = some r → r.final = some sf →
          inp.open_ok = true → inp.header_ok = true →
          (∀ x ∈ executed inp, x.write_ok = true) →
          sf.csv_file.disk
              = inp.existing
                ++ (Line.header
                    :: expectedRows
                        { emg := inp.emg0, ori := inp.ori0, acc := inp.acc0, gyr := inp.gyr0 }
                        inp.start_time (executed inp)).map Chunk.line
            ∧ (inp.existing = [] →
                fileLines showF sf.csv_file.disk
                  = (Line.header
                      :: expectedRows
                          { emg := inp.emg0, ori := inp.ori0, acc := inp.acc0,
                            gyr := inp.gyr0 }
                          inp.start_time (executed inp)).map
                      (fun l => (l.render showF).data))) := by
  refine ⟨by decide, ?_, rfl, ?_, ?_⟩
  · show csvFields headerText = headerNames
    rw [csvFields, String.split_of_valid]
    decide
  · intro ts emg ori acc gyr
    have h := rowText_fields showF hF ts emg ori acc gyr
    exact ⟨h, by rw [show Line.render showF (Line.row ts emg ori acc gyr)
      = rowText showF ts emg ori acc gyr from rfl, h]; rfl⟩
  · intro inp r sf hr hf ho hh hw
    obtain ⟨-, hsf⟩ := final_of_main inp r sf hr hf
    have hg0 : (initState inp).csv_file.good = true := by
      show (openStep _ _ _ _).good = true
      rw [openStep_good, ho, hh]; rfl
    have ho0 : (initState inp).csv_file.is_open = true := by
      show (openStep _ _ _ _).is_open = true
      rw [(openStep_frame _ _ _ _).1, ho]
    have hd0 : (initState inp).csv_file.disk = inp.existing ++ [Chunk.line Line.header] := by
      show (openStep _ _ _ _).disk = _
      rw [openStep_disk, ho, hh]; simp
    obtain ⟨hb, hgood⟩ := bodies_expected (initState inp) (executed inp) hg0 ho0 hw
    have hpend : (bodies (initState inp) (executed inp)).csv_file.pending = none := by
      generalize bodies (initState inp) (executed inp) = s at hgood
      rcases s with ⟨_, _, _, _, _, _, ⟨_, st, _, _⟩⟩
      cases st <;> simp_all [OFStream.good, OFStream.pending]
    have hdisk : sf.csv_file.disk
        = inp.existing
          ++ (Line.header
              :: expectedRows
                  { emg := inp.emg0, ori := inp.ori0, acc := inp.acc0, gyr := inp.gyr0 }
                  inp.start_time (executed inp)).map Chunk.line := by
      rw [hsf]
      show ((bodies (initState inp) (executed inp)).csv_file.close
        inp.close_ok inp.close_accepted).disk = _
      rw [close_of_no_pending _ _ _ hpend, hb, hd0, List.append_assoc]
      rfl
    refine ⟨hdisk, ?_⟩
    intro he
    rw [hdisk, he, List.nil_append, fileLines_lines]
    intro l hl
    apply render_no_newline showF hN
    rcases List.mem_cons.1 hl with h | h
    · exact Or.inr h
    · exact Or.inl (expectedRows_isRow _ _ _ l h)

/-- Witness for C7 (amended): the run over three iterations on a new file, with a
rendering of the values that contains neither comma nor newline; its file is the
header line followed by the two rows emitted at 10 ms and 20 ms. -/
theorem persisted_format_witness :
    (∀ x, ',' ∉ (showFrac x).data) ∧ (∀ x, '\n' ∉ (showFrac x).data)
      ∧ cadenceInput.open_ok = true ∧ cadenceInput.header_ok = true
      ∧ (∀ x ∈ executed cadenceInput, x.write_ok = true)
      ∧ cadenceInput.existing = []
      ∧ expectedRows
          { emg := cadenceInput.emg0, ori := cadenceInput.ori0, acc := cadenceInput.acc0,
            gyr := cadenceInput.gyr0 }
          cadenceInput.start_time (executed cadenceInput) = cadenceRows
      ∧ fileLines showFrac
          ((bodies (initState cadenceInput) (executed cadenceInput)).csv_file.close
            cadenceInput.close_ok cadenceInput.close_accepted).disk
          = (Line.header
              :: expectedRows
                  { emg := cadenceInput.emg0, ori := cadenceInput.ori0,
                    acc := cadenceInput.acc0, gyr := cadenceInput.gyr0 }
                  cadenceInput.start_time (executed cadenceInput)).map
              (fun l => (l.render showFrac).data) := by
  have hw : ∀ x ∈ executed cadenceInput, x.write_ok = true := by
    intro x hx
    have hx' : x ∈ cadenceRun := (executed_sublist cadenceInput).subset hx
    simp only [cadenceRun, List.mem_cons, List.mem_singleton, List.not_mem_nil, or_false] at hx'
    rcases hx' with h | h | h <;> rw [h]
  have hr : main cadenceInput
      = some (finish (bodies (initState cadenceInput) (executed cadenceInput))
          cadenceInput.close_ok cadenceInput.close_accepted) := rfl
  exact ⟨showFrac_no_comma, showFrac_no_newline, rfl, rfl, hw, rfl, rfl,
    ((persisted_format showFrac showFrac_no_comma showFrac_no_newline).2.2.2.2
      cadenceInput _
      { bodies (initState cadenceInput) (executed cadenceInput) with
        csv_file := (bodies (initState cadenceInput) (executed cadenceInput)).csv_file.close
          cadenceInput.close_ok cadenceInput.close_accepted }
      hr rfl rfl rfl hw).2 rfl⟩

end Properties

end MyoRecorder
